import Mathlib

/-!
# Proxy-object tree of playwright-go: channelOwner, bindingCallImpl

A shallow embedding of `channel_owner.go` and `binding_call.go`, and of
`ExposeBinding` and `newBrowserContext` of `browser_context.go`.

* Go pointers to `channelOwner` are addresses (indices) into a heap, a list of
  records; `nil` is `none`.
* A Go `map[string]T` is an association list of entries.  Every map of the
  source is owned by exactly one struct field (it is only ever assigned a
  fresh `make`), so maps are held by value in the owning record.
* There is one `connection`; a `connection` field is `nil` or points to it.
* A function that can panic or loop returns an `Option`/`Except`.
-/

namespace Playwright

/-! ## Go maps -/

/-- Entries of a Go `map[string]T`.  A map built by the operations below never
holds two entries with one key. -/
abbrev GoMap (α : Type) := List (String × α)

/-- The builtin `delete(m, k)`. -/
def GoMap.delete {α : Type} (m : GoMap α) (k : String) : GoMap α :=
  m.filter (fun e => e.1 != k)

/-- The assignment `m[k] = v`. -/
def GoMap.store {α : Type} (m : GoMap α) (k : String) (v : α) : GoMap α :=
  (k, v) :: GoMap.delete m k

/-- The read `v, ok := m[k]`. -/
def GoMap.load {α : Type} (m : GoMap α) (k : String) : Option α :=
  (m.find? (fun e => e.1 == k)).map (fun e => e.2)

/-- The keys of a map, in entry order. -/
def GoMap.keys {α : Type} (m : GoMap α) : List String :=
  m.map (fun e => e.1)

/-! ## Values, messages, the event emitter -/

/-- Go values of type `any` that travel through initializers and messages. -/
inductive GoValue where
  | null : GoValue
  | bool (b : Bool) : GoValue
  | int (n : Int) : GoValue
  | str (s : String) : GoValue
  | channel (guid : String) : GoValue
  | object (guid : String) : GoValue
  | slice (xs : List GoValue) : GoValue
  | dict (m : List (String × GoValue)) : GoValue
  | errorObject (name message stack : String) : GoValue

instance : Inhabited GoValue := ⟨GoValue.null⟩

/-- The three send variants of a channel, and the internal no-reply one. -/
inductive SendMode where
  | send
  | sendReturnAsDict
  | sendNoReply
  | sendNoReplyInternal
  deriving DecidableEq, Repr

/-- Modelled from the spec: the channel type is not among the sources.  An
outbound message of a channel, as in the wire shapes of section 6:
`method`, the `guid` of the object the channel belongs to, and `params`. -/
structure Message where
  mode : SendMode
  guid : String
  method : String
  params : GoMap GoValue

/-- One registered handler; `once` marks a one-shot subscription. -/
structure Listener where
  handler : Nat
  once : Bool
  deriving DecidableEq, Repr

/-- Modelled from the spec: the event emitter is not among the sources.  A
per-object listener registry: for each event name the list of its listeners. -/
structure eventEmitter where
  events : GoMap (List Listener)

/-- Modelled from the spec: listener-count introspection. -/
def eventEmitter.ListenerCount (e : eventEmitter) (name : String) : Nat :=
  match GoMap.load e.events name with
  | some ls => ls.length
  | none => 0

/-- Modelled from the spec: registration of a multi-use or one-shot listener. -/
def eventEmitter.addEvent (e : eventEmitter) (name : String) (handler : Nat) (once : Bool) :
    eventEmitter :=
  match GoMap.load e.events name with
  | some ls => { events := GoMap.store e.events name (ls ++ [{ handler := handler, once := once }]) }
  | none => { events := GoMap.store e.events name [{ handler := handler, once := once }] }

/-- Modelled from the spec: removal of a handler from an event; an event
without listeners is left alone. -/
def eventEmitter.RemoveListener (e : eventEmitter) (name : String) (handler : Nat) :
    eventEmitter :=
  match GoMap.load e.events name with
  | some ls => { events := GoMap.store e.events name (ls.filter (fun l => l.handler != handler)) }
  | none => e

/-! ## channelOwner -/

/-- The struct `channelOwner`.  `objects` holds the addresses of the children
by guid, `parent` the address of the owner, `connection` is `some ()` when the
field points to the connection. -/
structure channelOwner where
  eventEmitter : eventEmitter
  objectType : String
  guid : String
  objects : GoMap Nat
  eventToSubscriptionMapping : GoMap String
  connection : Option Unit
  initializer : GoMap GoValue
  parent : Option Nat
  wasCollected : Bool
  isInternalType : Bool

/-- The zero value of the struct, as produced by `&channelOwner{}`. -/
def channelOwner.zero : channelOwner :=
  { eventEmitter := { events := [] }
    objectType := ""
    guid := ""
    objects := []
    eventToSubscriptionMapping := []
    connection := none
    initializer := []
    parent := none
    wasCollected := false
    isInternalType := false }

instance : Inhabited channelOwner := ⟨channelOwner.zero⟩

/-- The struct `connection`, reduced to its registry `objects`. -/
structure connection where
  objects : GoMap Nat

/-- The memory the proxy tree lives in: the allocated `channelOwner`s and the
connection. -/
structure State where
  heap : List channelOwner
  connection : connection

/-- Dereference of a pointer; an address outside the heap reads as the zero
value. -/
def State.obj (s : State) (a : Nat) : channelOwner :=
  (s.heap[a]?).getD channelOwner.zero

/-- Update through a pointer. -/
def State.modify (s : State) (a : Nat) (f : channelOwner → channelOwner) : State :=
  { s with heap := s.heap.modify f a }

/-- The child set `a.objects`. -/
def State.objs (s : State) (a : Nat) : GoMap Nat :=
  (s.obj a).objects

/-- Allocation `&T{}` of a zero-valued object; returns its address. -/
def State.alloc (s : State) : State × Nat :=
  ({ s with heap := s.heap ++ [channelOwner.zero] }, s.heap.length)

/-- First statement of `dispose`: `if c.parent != nil { delete(c.parent.objects, c.guid) }`. -/
def unlinkFromParent (s : State) (c : Nat) : State :=
  match (s.obj c).parent with
  | some p => s.modify p (fun po => { po with objects := GoMap.delete po.objects (s.obj c).guid })
  | none => s

/-- The statement `c.connection.objects.Delete(c.guid)`. -/
def registryDelete (s : State) (guid : String) : State :=
  { s with connection := { objects := GoMap.delete s.connection.objects guid } }

/-- The statement `if len(reason) > 0 { c.wasCollected = reason[0] == "gc" }`. -/
def recordReason (s : State) (c : Nat) (reason : List String) : State :=
  match reason with
  | [] => s
  | r :: _ => s.modify c (fun co => { co with wasCollected := r == "gc" })

/-- The part of `dispose` before the loop over the children. -/
def disposeHead (s : State) (c : Nat) (reason : List String) : State :=
  recordReason (registryDelete (unlinkFromParent s c) (s.obj c).guid) c reason

/-- The loop `for _, object := range c.objects { ... }` over a snapshot of the
entries: an entry deleted from `c.objects` before it is reached is not
produced.  The entries are visited in list order; Go leaves the order open,
and every statement below holds for every order of the entries.  The loop
reads the child set of `c` in the current state, which is the map the Go loop
ranges over unless a nested call replaces `c.objects`, that is, disposes `c`
itself; `dispose_spec` shows that no run does so in a state whose entries are
owned. -/
def disposeLoop (rec : State → Nat → Option State) (c : Nat) (entries : GoMap Nat)
    (s : State) : Option State :=
  entries.foldlM (fun st e => if e ∈ st.objs c then rec st e.2 else some st) s

/-- The method `channelOwner.dispose(reason ...string)`; `fuel` bounds the
depth of the recursion, `none` is a run that exceeds it or that dereferences
a nil pointer. -/
def dispose : Nat → State → Nat → List String → Option State
  | 0, _, _, _ => none
  | fuel + 1, s, c, reason =>
    if c < s.heap.length then
      match (s.obj c).connection with
      | none => none
      | some _ =>
        let s3 := disposeHead s c reason
        match disposeLoop (fun st a => dispose fuel st a reason) c (s3.objs c) s3 with
        | none => none
        | some s4 => some (s4.modify c (fun co => { co with objects := [] }))
    else none

/-- State of `adopt` after `delete(child.parent.objects, child.guid)`. -/
def adoptDelete (s : State) (child p : Nat) : State :=
  s.modify p (fun po => { po with objects := GoMap.delete po.objects (s.obj child).guid })

/-- State of `adopt` after `c.objects[child.guid] = child`. -/
def adoptStore (s : State) (c child p : Nat) : State :=
  (adoptDelete s child p).modify c
    (fun co => { co with objects := GoMap.store co.objects (s.obj child).guid child })

/-- The method `channelOwner.adopt(child)`; `none` is the nil dereference of
`child.parent` (or of the receiver or the child). -/
def adopt (s : State) (c child : Nat) : Option State :=
  if c < s.heap.length ∧ child < s.heap.length then
    match (s.obj child).parent with
    | none => none
    | some p => some ((adoptStore s c child p).modify child (fun o => { o with parent := some c }))
  else none

/-- The method `channelOwner.setEventSubscriptionMapping`. -/
def channelOwner.setEventSubscriptionMapping (c : channelOwner) (mapping : GoMap String) :
    channelOwner :=
  { c with eventToSubscriptionMapping := mapping }

/-- Modelled from the spec: `channel.SendNoReplyInternal`, a message on the
channel of `c` for which no reply is awaited. -/
def channelOwner.SendNoReplyInternal (c : channelOwner) (method : String)
    (params : GoMap GoValue) : Message :=
  { mode := SendMode.sendNoReplyInternal, guid := c.guid, method := method, params := params }

/-- The method `channelOwner.updateSubscription`; returns the messages sent. -/
def channelOwner.updateSubscription (c : channelOwner) (event : String) (enabled : Bool) :
    List Message :=
  match GoMap.load c.eventToSubscriptionMapping event with
  | some protocolEvent =>
    [c.SendNoReplyInternal "updateSubscription"
      [("event", GoValue.str protocolEvent), ("enabled", GoValue.bool enabled)]]
  | none => []

/-- The method `channelOwner.addEvent`; returns the object and the messages sent. -/
def channelOwner.addEvent (c : channelOwner) (name : String) (handler : Nat) (once : Bool) :
    channelOwner × List Message :=
  let sent := if c.eventEmitter.ListenerCount name = 0 then c.updateSubscription name true else []
  ({ c with eventEmitter := c.eventEmitter.addEvent name handler once }, sent)

/-- The method `channelOwner.Once`. -/
def channelOwner.Once (c : channelOwner) (name : String) (handler : Nat) :
    channelOwner × List Message :=
  c.addEvent name handler true

/-- The method `channelOwner.On`. -/
def channelOwner.On (c : channelOwner) (name : String) (handler : Nat) :
    channelOwner × List Message :=
  c.addEvent name handler false

/-- The method `channelOwner.RemoveListener`. -/
def channelOwner.RemoveListener (c : channelOwner) (name : String) (handler : Nat) :
    channelOwner × List Message :=
  let c1 := { c with eventEmitter := c.eventEmitter.RemoveListener name handler }
  (c1, if c1.eventEmitter.ListenerCount name = 0 then c1.updateSubscription name false else [])

/-- The statement `c.connection.objects.Store(guid, c)`. -/
def registryStore (s : State) (guid : String) (c : Nat) : State :=
  { s with connection := { objects := GoMap.store s.connection.objects guid c } }

/-- The assignments to the fields of the receiver that open
`createChannelOwner`. -/
def createFields (s : State) (c : Nat) (parent : Option Nat) (objectType guid : String)
    (initializer : GoMap GoValue) : State :=
  s.modify c (fun o =>
    { o with objectType := objectType, guid := guid, wasCollected := false, parent := parent,
             objects := [], initializer := initializer })

/-- The body of `if c.parent != nil`:
`c.connection = parent.connection; c.parent.objects[guid] = c`. -/
def createLink (s : State) (c p : Nat) (guid : String) : State :=
  (s.modify c (fun o => { o with connection := (s.obj p).connection })).modify p
    (fun po => { po with objects := GoMap.store po.objects guid c })

/-- The statement `if c.connection != nil { c.connection.objects.Store(guid, c) }`. -/
def registerIfConnected (s : State) (c : Nat) (guid : String) : State :=
  match (s.obj c).connection with
  | some _ => registryStore s guid c
  | none => s

/-- The method `channelOwner.createChannelOwner` on the receiver at address `c`. -/
def createChannelOwner (s : State) (c : Nat) (parent : Option Nat) (objectType guid : String)
    (initializer : GoMap GoValue) : State :=
  let s1 := createFields s c parent objectType guid initializer
  let s2 := match parent with
    | some p => createLink s1 c p guid
    | none => s1
  (registerIfConnected s2 c guid).modify c (fun o => { o with eventToSubscriptionMapping := [] })

/-- The constructor pattern of every proxy type (`newBindingCall`,
`newCDPSession`, ...): allocate, then `createChannelOwner` under `parent`. -/
def newBindingCall (s : State) (parent : Nat) (objectType guid : String)
    (initializer : GoMap GoValue) : State × Nat :=
  (createChannelOwner (s.alloc).1 (s.alloc).2 (some parent) objectType guid initializer,
    (s.alloc).2)

/-- The function `newRootChannelOwner(connection)`. -/
def newRootChannelOwner (s : State) (conn : Option Unit) : State × Nat :=
  let s1 := (s.alloc).1.modify (s.alloc).2 (fun o => { o with connection := conn })
  (createChannelOwner s1 (s.alloc).2 none "Root" "" [], (s.alloc).2)

/-! ## bindingCallImpl -/

/-- The value a deferred `recover()` yields for a panic: a value that
implements `error` (with the text of `Error()`), or any other value. -/
inductive PanicValue where
  | error (message : String) : PanicValue
  | other (v : GoValue) : PanicValue

/-- The struct `BindingSource`; the three proxies by value. -/
structure BindingSource where
  Context : GoValue
  Page : GoValue
  Frame : GoValue

/-- The type `BindingCallFunction`: a Go function returns its result or panics. -/
abbrev BindingCallFunction := BindingSource → List GoValue → Except PanicValue GoValue

/-- The helpers `Call` uses that are not among the sources, and the runtime
facts it depends on.  `fromChannel` is `none` where the Go function panics (a
failed type assertion, a runtime error); `frameSource` builds the source
descriptor from the resolved frame (`none`: the assertion `.(*frameImpl)` or
a nil page panics); `stack` is the text of the captured call stack; `sendErr`
is the error `channel.Send` returns for a message, if any. -/
structure Env where
  fromChannel : GoValue → Option GoValue
  frameSource : GoValue → Option BindingSource
  parseResult : GoValue → GoValue
  serializeArgument : GoValue → GoValue
  stack : String
  sendErr : Message → Option String

/-- What one run of `Call` does: the messages sent on the channel, the lines
logged, and the panic that leaves `Call`, if one does. -/
structure CallResult where
  sent : List Message
  logged : List String
  panic : Option PanicValue

/-- Modelled from the spec: `channel.Send`, a message on the channel of `c`
whose result is awaited. -/
def channelOwner.Send (c : channelOwner) (method : String) (params : GoMap GoValue) : Message :=
  { mode := SendMode.send, guid := c.guid, method := method, params := params }

/-- The panic of the Go runtime for a failed type assertion or nil
dereference; its value implements `error`. -/
def runtimeError (message : String) : PanicValue :=
  PanicValue.error message

/-- An index expression `m[k]` of type `any`: `nil` for a missing key. -/
def GoMap.index (m : GoMap GoValue) (k : String) : GoValue :=
  (GoMap.load m k).getD GoValue.null

/-- The function `serializeError`. -/
def serializeError (env : Env) (message : String) : GoMap GoValue :=
  [("error", GoValue.errorObject "Playwright for Go Error" message env.stack)]

/-- The arguments `Call` passes to `f` after the source descriptor: the
proxy of the handle when the initializer has a `handle` key, else the parsed
elements of `initializer["args"]`. A failure is the panic of the statement. -/
def callArgs (env : Env) (b : channelOwner) : Except PanicValue (List GoValue) :=
  match GoMap.load b.initializer "handle" with
  | some handle =>
    match env.fromChannel handle with
    | some h => Except.ok [h]
    | none => Except.error (runtimeError "interface conversion")
  | none =>
    match GoMap.index b.initializer "args" with
    | GoValue.slice initializerArgs => Except.ok (initializerArgs.map env.parseResult)
    | _ => Except.error (runtimeError "interface conversion")

/-- The source descriptor `Call` builds from `initializer["frame"]`. -/
def callSource (env : Env) (b : channelOwner) : Except PanicValue BindingSource :=
  match env.fromChannel (GoMap.index b.initializer "frame") with
  | none => Except.error (runtimeError "interface conversion")
  | some frame =>
    match env.frameSource frame with
    | none => Except.error (runtimeError "interface conversion")
    | some source => Except.ok source

/-- The body of `Call` below the `defer`: either it panics, or it sends
`resolve` and returns the message with what it logged. -/
def callBody (env : Env) (b : channelOwner) (f : BindingCallFunction) :
    Except PanicValue (Message × List String) :=
  match callSource env b with
  | Except.error r => Except.error r
  | Except.ok source =>
    match callArgs env b with
    | Except.error r => Except.error r
    | Except.ok funcArgs =>
      match f source funcArgs with
      | Except.error r => Except.error r
      | Except.ok result =>
        let msg := b.Send "resolve" [("result", env.serializeArgument result)]
        match env.sendErr msg with
        | some _ => Except.ok (msg, ["could not resolve BindingCall"])
        | none => Except.ok (msg, [])

/-- The deferred function of `Call` for a recovered value `r`: the assertion
`r.(error)` panics anew when `r` does not implement `error`; otherwise
`reject` is sent. -/
def callRecover (env : Env) (b : channelOwner) (r : PanicValue) : CallResult :=
  match r with
  | PanicValue.error message =>
    let msg := b.Send "reject" [("error", GoValue.dict (serializeError env message))]
    match env.sendErr msg with
    | some _ => { sent := [msg], logged := ["could not reject BindingCall"], panic := none }
    | none => { sent := [msg], logged := [], panic := none }
  | PanicValue.other _ =>
    { sent := [], logged := [], panic := some (runtimeError "interface conversion") }

/-- The method `bindingCallImpl.Call(f)`. -/
def Call (env : Env) (b : channelOwner) (f : BindingCallFunction) : CallResult :=
  match callBody env b f with
  | Except.ok (msg, logged) => { sent := [msg], logged := logged, panic := none }
  | Except.error r => callRecover env b r

/-- The memory before anything is allocated. -/
def State.empty : State :=
  { heap := [], connection := { objects := [] } }

/-! ## Sample inputs -/

/-- An environment in which every channel resolves to its object and every
resolved frame has a page and a context. -/
def sampleEnv : Env :=
  { fromChannel := fun v =>
      match v with
      | GoValue.channel g => some (GoValue.object g)
      | _ => none
    frameSource := fun v =>
      some { Context := GoValue.object "context@1", Page := GoValue.object "page@1", Frame := v }
    parseResult := fun v => v
    serializeArgument := fun v => v
    stack := "main.go:1"
    sendErr := fun _ => none }

/-- A binding call whose initializer names a frame and carries one argument. -/
def sampleBinding : channelOwner :=
  { channelOwner.zero with
    guid := "bindingCall@1"
    objectType := "BindingCall"
    initializer := [("frame", GoValue.channel "frame@1"), ("name", GoValue.str "fn"),
                    ("args", GoValue.slice [GoValue.int 7])] }

/-- A binding call whose initializer names a frame but has neither a handle
nor an argument list. -/
def bareBinding : channelOwner :=
  { channelOwner.zero with
    guid := "bindingCall@2"
    objectType := "BindingCall"
    initializer := [("frame", GoValue.channel "frame@1"), ("name", GoValue.str "fn")] }

/-- The Go function `func(...) any { panic("boom") }`. -/
def panicWithString : BindingCallFunction :=
  fun _ _ => Except.error (PanicValue.other (GoValue.str "boom"))

/-- The Go function `func(...) any { return 1 }`. -/
def returnOne : BindingCallFunction :=
  fun _ _ => Except.ok (GoValue.int 1)

/-- An object that mirrors the event `request` and has no listener yet. -/
def sampleOwner : channelOwner :=
  { channelOwner.zero with
    guid := "context@1"
    eventToSubscriptionMapping := [("request", "request"), ("requestfinished", "requestFinished")] }

/-- The heap after `newRootChannelOwner` followed by two constructor calls:
the root at address 0, `browser@1` at 1 under the root, `page@1` at 2 under
`browser@1`. -/
def sampleTree : State :=
  (newBindingCall (newBindingCall (newRootChannelOwner State.empty (some ())).1 0
    "Browser" "browser@1" []).1 1 "Page" "page@1" []).1

/-! ## Well-formed proxy trees -/

/-- The object at `a` is in the child set of `p`. -/
def IsChild (s : State) (p a : Nat) : Prop :=
  ∃ e ∈ s.objs p, e.2 = a

/-- The object at `x` is `o` or a transitive descendant of `o`. -/
def Desc (s : State) (o x : Nat) : Prop :=
  Relation.ReflTransGen (IsChild s) o x

/-- Every object in a child set is allocated, has that owner as its parent
and is stored under its guid. -/
def EntriesOwned (s : State) : Prop :=
  ∀ p < s.heap.length, ∀ e ∈ s.objs p,
    e.2 < s.heap.length ∧ (s.obj e.2).parent = some p ∧ (s.obj e.2).guid = e.1

/-- Child sets are maps: no key occurs twice. -/
def KeysNodup (s : State) : Prop :=
  ∀ p < s.heap.length, (GoMap.keys (s.objs p)).Nodup

/-- Distinct objects have distinct guids. -/
def UniqueGuids (s : State) : Prop :=
  ∀ a < s.heap.length, ∀ b < s.heap.length, (s.obj a).guid = (s.obj b).guid → a = b

/-- Every registry entry is an allocated object stored under its guid. -/
def RegistryKeyed (s : State) : Prop :=
  ∀ e ∈ s.connection.objects, e.2 < s.heap.length ∧ (s.obj e.2).guid = e.1

/-- Every object points to the connection. -/
def Connected (s : State) : Prop :=
  ∀ a < s.heap.length, (s.obj a).connection = some ()

/-- A well-formed proxy tree: every object in a child set has that owner as
its parent and is stored under its guid, child sets are maps, guids are
unique, the registry stores objects under their guid, and all objects share
the one connection. -/
structure WellFormed (s : State) : Prop where
  owned : EntriesOwned s
  keys : KeysNodup s
  guids : UniqueGuids s
  registry : RegistryKeyed s
  connected : Connected s

instance (s : State) : Decidable (EntriesOwned s) := by
  unfold EntriesOwned; infer_instance

instance (s : State) : Decidable (KeysNodup s) := by
  unfold KeysNodup; infer_instance

instance (s : State) : Decidable (UniqueGuids s) := by
  unfold UniqueGuids; infer_instance

instance (s : State) : Decidable (RegistryKeyed s) := by
  unfold RegistryKeyed; infer_instance

instance (s : State) : Decidable (Connected s) := by
  unfold Connected; infer_instance

instance (s : State) : Decidable (WellFormed s) :=
  decidable_of_iff
    (EntriesOwned s ∧ KeysNodup s ∧ UniqueGuids s ∧ RegistryKeyed s ∧ Connected s)
    ⟨fun h => ⟨h.1, h.2.1, h.2.2.1, h.2.2.2.1, h.2.2.2.2⟩,
     fun h => ⟨h.owned, h.keys, h.guids, h.registry, h.connected⟩⟩

/-! ## The effect of a run of dispose -/

/-- Some object of `D` has parent `y` and guid `k`: its `dispose` deletes the
key `k` from the child set of `y`. -/
def hitBy (s : State) (D : List Nat) (y : Nat) (k : String) : Bool :=
  D.any (fun z => (s.obj z).parent == some y && (s.obj z).guid == k)

/-- The guids of the objects of `D`. -/
def guidsOf (s : State) (D : List Nat) : List String :=
  D.map (fun z => (s.obj z).guid)

/-- The flag `wasCollected` after `dispose(reason...)`. -/
def collected (reason : List String) (old : Bool) : Bool :=
  match reason with
  | [] => old
  | r :: _ => r == "gc"

/-- The object at `a` after `dispose` has run on exactly the objects of `D`. -/
def disposedObj (s : State) (D : List Nat) (reason : List String) (a : Nat) : channelOwner :=
  if a ∈ D then
    { s.obj a with objects := [], wasCollected := collected reason (s.obj a).wasCollected }
  else
    { s.obj a with objects := (s.objs a).filter (fun e => !hitBy s D a e.1) }

/-- The state `s'` is `s` after `dispose` has run on exactly the objects of `D`. -/
structure Eff (s s' : State) (D : List Nat) (reason : List String) : Prop where
  len : s'.heap.length = s.heap.length
  obj : ∀ a, a < s.heap.length → s'.obj a = disposedObj s D reason a
  reg : s'.connection.objects =
    s.connection.objects.filter (fun e => !(guidsOf s D).contains e.1)
  valid : ∀ z ∈ D, z < s.heap.length

/-- The state `s'` has the objects of `s`, with the same guids, parents and
connections, and child sets that lost entries only. -/
structure Shrinks (s s' : State) : Prop where
  len : s'.heap.length = s.heap.length
  fields : ∀ a, (s'.obj a).guid = (s.obj a).guid ∧ (s'.obj a).parent = (s.obj a).parent ∧
    (s'.obj a).connection = (s.obj a).connection
  sub : ∀ a, (s'.objs a).Sublist (s.objs a)

/-- No child set holds an object of `B`. -/
def NoIn (s : State) (B : List Nat) : Prop :=
  ∀ p e, e ∈ s.objs p → e.2 ∉ B

/-- What a returned run `dispose` of `o` from `s` to `s'` did: it ran on `o` and
on the objects of `D`, all of them descendants of `o`; in a state with owned
entries it ran on no object twice, on none of a set `B` that no child set
holds, and on every child of an object it ran on. -/
def DisposeSpec (s : State) (o : Nat) (s' : State) (D : List Nat) (reason : List String) :
    Prop :=
  Eff s s' (o :: D) reason ∧ (∀ z ∈ D, Relation.TransGen (IsChild s) o z) ∧
  (EntriesOwned s → KeysNodup s → ∀ B, NoIn s B →
    (∀ z ∈ D, z ∉ B) ∧ (o :: D).Nodup ∧
    ∀ p ∈ o :: D, ∀ e ∈ s.objs p,
      e.2 ∈ o :: D ∨ ((s.obj o).parent = some p ∧ (s.obj o).guid = e.1))

/-- What a returned run of the loop of `dispose` over the entries `L` of `c`
did, in the terms of `DisposeSpec`. -/
def LoopSpec (st : State) (c : Nat) (L : GoMap Nat) (s4 : State) (D : List Nat)
    (reason : List String) : Prop :=
  Eff st s4 D reason ∧ (∀ z ∈ D, Relation.TransGen (IsChild st) c z) ∧
  (EntriesOwned st → KeysNodup st → ∀ B, NoIn st B → c ∈ B →
    (∀ z ∈ D, z ∉ B) ∧ D.Nodup ∧ (∀ p ∈ D, ∀ e ∈ st.objs p, e.2 ∈ D) ∧
    (∀ e ∈ L, e ∈ st.objs c → e.2 ∈ D))

/-! ## Reachable states of the proxy tree -/

/-- The memory after `newRootChannelOwner(connection)`: the fresh root. -/
def rootState : State :=
  (newRootChannelOwner State.empty (some ())).1

/-- The object at `a` is live: it is allocated and a lookup of the registry
returns it. -/
def Live (s : State) (a : Nat) : Prop :=
  a < s.heap.length ∧ ∃ k, GoMap.load s.connection.objects k = some a

/-- The states a sequence of `createChannelOwner` (through a constructor),
`adopt` and `dispose` reaches from a fresh root.  With `guarded` the guid of a
created object has no registry entry, and the adopted child and the disposed
object are live; without it any guid and any allocated object is allowed. -/
inductive Reachable (guarded : Bool) : State → Prop where
  | root : Reachable guarded rootState
  | create {s : State} (p : Nat) (objectType g : String) (initializer : GoMap GoValue) :
      Reachable guarded s → p < s.heap.length →
      (guarded = true → GoMap.load s.connection.objects g = none) →
      Reachable guarded (newBindingCall s p objectType g initializer).1
  | adopt {s s' : State} (c child : Nat) :
      Reachable guarded s → (guarded = true → Live s child) →
      adopt s c child = some s' → Reachable guarded s'
  | dispose {s s' : State} (o : Nat) (reason : List String) (fuel : Nat) :
      Reachable guarded s → (guarded = true → Live s o) →
      dispose fuel s o reason = some s' → Reachable guarded s'

/-- The address of the root: the object `newRootChannelOwner` allocates in
the empty memory. -/
def rootAddress : Nat :=
  (newRootChannelOwner State.empty (some ())).2

/-- The invariant of the proxy tree: every live object other than the root
has a parent, is the registry entry for its guid and the entry of its
parent's child set under its guid, and is in no other child set and under no
other key; every member of the child set of a live object is live; and the
root has no parent. -/
def TreeInvariant (s : State) : Prop :=
  (∀ a, Live s a → a ≠ rootAddress →
    ∃ p, (s.obj a).parent = some p ∧
      GoMap.load s.connection.objects (s.obj a).guid = some a ∧
      GoMap.load (s.objs p) (s.obj a).guid = some a ∧
      ∀ q e, e ∈ s.objs q → e.2 = a → q = p ∧ e.1 = (s.obj a).guid) ∧
  (∀ p, Live s p → ∀ e ∈ s.objs p, Live s e.2) ∧
  (s.obj rootAddress).parent = none

/-- Every allocated object other than the root has a parent, and the root,
which is allocated, has none. -/
structure Parented (s : State) : Prop where
  allocated : rootAddress < s.heap.length
  root : (s.obj rootAddress).parent = none
  other : ∀ a < s.heap.length, a ≠ rootAddress → ∃ p, (s.obj a).parent = some p

/-- The invariant the guarded operations keep, from which `TreeInvariant`
follows: all objects are connected, registry and child sets store allocated
objects under their guid, a child has its owner as parent, every member of a
child set is the registry entry of its key, and a registered object with a
parent is in the child set of that parent. -/
structure StrongInvariant (s : State) : Prop where
  connected : Connected s
  registry : RegistryKeyed s
  owned : EntriesOwned s
  keys : KeysNodup s
  entriesLive : ∀ p < s.heap.length, ∀ e ∈ s.objs p,
    GoMap.load s.connection.objects e.1 = some e.2
  linked : ∀ a < s.heap.length, GoMap.load s.connection.objects (s.obj a).guid = some a →
    ∀ p, (s.obj a).parent = some p → ((s.obj a).guid, a) ∈ s.objs p

/-- A run outside the guards, by a guid in use: `page@1` under the root, then
a second `page@1` under the first. -/
def duplicateGuidRun : State :=
  (newBindingCall (newBindingCall rootState 0 "Page" "page@1" []).1 1 "Page" "page@1" []).1

/-- The tree with the root at 0 and `page@1` at 1. -/
def rootWithPage : State :=
  (newBindingCall rootState 0 "Page" "page@1" []).1

/-- A run outside the guards, by the adoption of a disposed object: `page@1`
is disposed, then adopted by the root. -/
def adoptAfterDisposeRun : Option State :=
  (dispose 2 rootWithPage 1 []).bind (fun s => adopt s 0 1)

/-- The tree with the root at 0, `browser@1` at 1 under the root and `page@1`
at 2 under `browser@1`, after `page@1` was disposed and a second object with
the guid `page@1` was made under the root, at 3. -/
def reusedGuidTree : Option State :=
  (dispose 2 sampleTree 2 []).map (fun s => (newBindingCall s 0 "Page" "page@1" []).1)

/-- A run outside the guards, by a second `dispose` of a disposed object:
`page@1` at 2 is disposed again after its guid was given to the object at 3. -/
def disposeTwiceRun : Option State :=
  reusedGuidTree.bind (fun s => dispose 2 s 2 [])

/-- A run inside the guards: the root adopts `page@1`, then `browser@1` is
disposed. -/
def guardedRun : Option State :=
  (adopt sampleTree 0 2).bind (fun s => dispose 2 s 1 ["gc"])

/-- The tree root / `browser@1` / `page@1` after the page adopted the browser:
the two own each other. -/
def adoptedCycle : Option State :=
  adopt sampleTree 2 1

/-- The Go function `func(...) any { panic(errors.New("boom")) }`. -/
def panicWithError : BindingCallFunction :=
  fun _ _ => Except.error (PanicValue.error "boom")

/-! ## Listeners, closures as binding functions, browser contexts -/

/-- Modelled from the spec: the listeners registered for an event, none for
an event the emitter does not know. -/
def eventEmitter.listeners (e : eventEmitter) (name : String) : List Listener :=
  (GoMap.load e.events name).getD []

/-- A Go function value of type `BindingCallFunction` with the variables it
closes over: a call reads and writes them, and returns or panics. -/
abbrev BindingCallClosure (σ : Type) :=
  BindingSource → List GoValue → σ → Except PanicValue GoValue × σ

/-- The body of `Call` below the `defer`, for a function that closes over
variables: the result of the body and the variables when it ends.  The body
calls `f` at one place, after the source descriptor and the arguments are
built; what `f` wrote before a panic stays written. -/
def callBodyIn {σ : Type} (env : Env) (b : channelOwner) (f : BindingCallClosure σ)
    (vars : σ) : Except PanicValue (Message × List String) × σ :=
  match callSource env b with
  | Except.error r => (Except.error r, vars)
  | Except.ok source =>
    match callArgs env b with
    | Except.error r => (Except.error r, vars)
    | Except.ok funcArgs =>
      match f source funcArgs vars with
      | (Except.error r, vars1) => (Except.error r, vars1)
      | (Except.ok result, vars1) =>
        let msg := b.Send "resolve" [("result", env.serializeArgument result)]
        match env.sendErr msg with
        | some _ => (Except.ok (msg, ["could not resolve BindingCall"]), vars1)
        | none => (Except.ok (msg, []), vars1)

/-- The method `bindingCallImpl.Call(f)` for a function that closes over
variables: what the run does, and the variables after it. -/
def CallIn {σ : Type} (env : Env) (b : channelOwner) (f : BindingCallClosure σ)
    (vars : σ) : CallResult × σ :=
  match callBodyIn env b f vars with
  | (Except.ok (msg, logged), vars1) => ({ sent := [msg], logged := logged, panic := none }, vars1)
  | (Except.error r, vars1) => (callRecover env b r, vars1)

/-- The Go closure `func(source, args...) any { calls = append(calls, ...);
return f(source, args...) }`: it appends the source descriptor and the
arguments it is called with to the list `calls` it closes over, then does
what `f` does. -/
def recordCalls (f : BindingCallFunction) :
    BindingCallClosure (List (BindingSource × List GoValue)) :=
  fun source args calls => (f source args, calls ++ [(source, args)])

/-- A binding call whose initializer has a handle but no frame. -/
def framelessBinding : channelOwner :=
  { channelOwner.zero with
    guid := "bindingCall@3"
    objectType := "BindingCall"
    initializer := [("name", GoValue.str "fn"), ("handle", GoValue.channel "handle@1")] }

/-- A binding call whose initializer has a frame and a handle that is no
channel. -/
def badHandleBinding : channelOwner :=
  { channelOwner.zero with
    guid := "bindingCall@4"
    objectType := "BindingCall"
    initializer := [("frame", GoValue.channel "frame@1"), ("name", GoValue.str "fn"),
                    ("handle", GoValue.str "handle@1")] }

/-- A binding call whose initializer has a frame and a handle, and an `args`
entry that is no list. -/
def handleBinding : channelOwner :=
  { channelOwner.zero with
    guid := "bindingCall@5"
    objectType := "BindingCall"
    initializer := [("frame", GoValue.channel "frame@1"), ("name", GoValue.str "fn"),
                    ("handle", GoValue.channel "handle@1"), ("args", GoValue.str "unread")] }

/-- Modelled from the spec: the page type is not among the sources; of a page
`ExposeBinding` reads the binding table only. -/
structure pageImpl where
  bindings : GoMap BindingCallFunction

/-- The struct `browserContextImpl`, reduced to the fields `ExposeBinding`
reads or writes: the embedded `channelOwner`, the page list and the binding
table. -/
structure browserContextImpl where
  channelOwner : channelOwner
  pages : List pageImpl
  bindings : GoMap BindingCallFunction

/-- What one call of `ExposeBinding` does: the context afterwards, the
messages sent on its channel and the error returned, if any. -/
structure ExposeResult where
  context : browserContextImpl
  sent : List Message
  err : Option String

/-- The flag `needsHandle` of `ExposeBinding`: `handle[0]` when
`len(handle) == 1`, else `false`. -/
def needsHandle (handle : List Bool) : Bool :=
  match handle with
  | [h] => h
  | _ => false

/-- The method `browserContextImpl.ExposeBinding(name, binding, handle...)`. -/
def ExposeBinding (env : Env) (b : browserContextImpl) (name : String)
    (binding : BindingCallFunction) (handle : List Bool) : ExposeResult :=
  if b.pages.any (fun page => (GoMap.load page.bindings name).isSome) then
    { context := b, sent := [],
      err := some ("Function \x27" ++ name ++
        "\x27 has been already registered in one of the pages") }
  else if (GoMap.load b.bindings name).isSome then
    { context := b, sent := [],
      err := some ("Function \x27" ++ name ++ "\x27 has been already registered") }
  else
    { context := { b with bindings := GoMap.store b.bindings name binding }
      sent := [b.channelOwner.Send "exposeBinding"
        [("name", GoValue.str name), ("needsHandle", GoValue.bool (needsHandle handle))]]
      err := env.sendErr (b.channelOwner.Send "exposeBinding"
        [("name", GoValue.str name), ("needsHandle", GoValue.bool (needsHandle handle))]) }

/-- A context with the binding `fn` and one page with the binding `pageFn`. -/
def sampleContext : browserContextImpl :=
  { channelOwner := { channelOwner.zero with guid := "context@1" }
    pages := [{ bindings := [("pageFn", returnOne)] }]
    bindings := [("fn", returnOne)] }

/-- The map `newBrowserContext` passes to `setEventSubscriptionMapping`. -/
def browserContextSubscriptions : GoMap String :=
  [("request", "request"), ("response", "response"), ("requestfinished", "requestFinished"),
   ("responsefailed", "responseFailed")]

/-- The network handlers `newBrowserContext` installs with `channel.On`: the
protocol event of each handler and the event it emits to the listeners of the
context. -/
def networkHandlers : List (String × String) :=
  [("request", "request"), ("requestFailed", "requestfailed"),
   ("requestFinished", "requestfinished"), ("response", "response")]

/-- The function `newBrowserContext`, as far as the proxy tree and the
subscription map go: allocate, `createChannelOwner`, resolve the tracing
object, then `setEventSubscriptionMapping`; the handlers installed in between
are those of `networkHandlers`.  `none` is the panic of
`fromChannel(initializer["tracing"]).(*tracingImpl)`: `fromChannel` fails, or
the object it returns is no tracing object, which `isTracing` tells. -/
def newBrowserContext (env : Env) (isTracing : GoValue → Bool) (s : State) (parent : Nat)
    (objectType guid : String) (initializer : GoMap GoValue) : Option (State × Nat) :=
  match env.fromChannel (GoMap.index initializer "tracing") with
  | none => none
  | some tracing =>
    if isTracing tracing then
      some ((createChannelOwner (s.alloc).1 (s.alloc).2 (some parent) objectType guid
          initializer).modify (s.alloc).2
          (fun o => o.setEventSubscriptionMapping browserContextSubscriptions),
        (s.alloc).2)
    else none

/-- The objects that are tracing objects: `tracing@1` alone. -/
def sampleIsTracing (v : GoValue) : Bool :=
  match v with
  | GoValue.object "tracing@1" => true
  | _ => false

/-- The initializer of a browser context, as far as `newBrowserContext` reads
it: the channel of its tracing object. -/
def sampleContextInitializer : GoMap GoValue :=
  [("tracing", GoValue.channel "tracing@1")]

/-- The context `context@1` made by `newBrowserContext` under `browser@1` of
the sample tree; the zero value if the constructor panics. -/
def sampleBrowserContext : channelOwner :=
  match newBrowserContext sampleEnv sampleIsTracing sampleTree 1 "BrowserContext" "context@1"
      sampleContextInitializer with
  | some (s, c) => s.obj c
  | none => channelOwner.zero

/-- An object that mirrors `request` and has one listener of it, with the
handler 7. -/
def listeningOwner : channelOwner :=
  (sampleOwner.On "request" 7).1

/-! ## Basic facts about maps and the heap -/

theorem GoMap.mem_delete {α : Type} (m : GoMap α) (k : String) (e : String × α) :
    e ∈ GoMap.delete m k ↔ e ∈ m ∧ e.1 ≠ k := by
  simp [GoMap.delete]

theorem GoMap.load_store_self {α : Type} (m : GoMap α) (k : String) (v : α) :
    GoMap.load (GoMap.store m k v) k = some v := by
  simp [GoMap.load, GoMap.store]

theorem GoMap.load_eq_none_iff {α : Type} (m : GoMap α) (k : String) :
    GoMap.load m k = none ↔ k ∉ GoMap.keys m := by
  simp [GoMap.load, GoMap.keys]
  constructor
  · intro h v hv
    exact h k v hv rfl
  · intro h a b hab hak
    subst hak
    exact h b hab

theorem GoMap.mem_of_load {α : Type} (m : GoMap α) (k : String) (v : α)
    (h : GoMap.load m k = some v) : (k, v) ∈ m := by
  unfold GoMap.load at h
  cases he : m.find? (fun e => e.1 == k) with
  | none => simp [he] at h
  | some e =>
    simp only [he, Option.map_some', Option.some.injEq] at h
    have h1 := List.mem_of_find?_eq_some he
    have h2 := List.find?_some he
    simp only [beq_iff_eq] at h2
    have : e = (k, v) := Prod.ext h2 h
    exact this ▸ h1

theorem GoMap.load_of_mem {α : Type} (m : GoMap α) (k : String) (v : α)
    (hm : (GoMap.keys m).Nodup) (h : (k, v) ∈ m) : GoMap.load m k = some v := by
  induction m with
  | nil => simp at h
  | cons e m ih =>
    simp only [GoMap.keys, List.map_cons, List.nodup_cons, List.mem_map, not_exists, not_and] at hm
    rcases List.mem_cons.1 h with h | h
    · subst h
      simp [GoMap.load]
    · have hne : e.1 ≠ k := fun hk => hm.1 (k, v) h hk.symm
      have := ih hm.2 h
      simp only [GoMap.load] at this ⊢
      rw [List.find?_cons_of_neg]
      · exact this
      · simpa using hne

theorem State.obj_modify (s : State) (a : Nat) (f : channelOwner → channelOwner) (b : Nat) :
    (s.modify a f).obj b = if a = b ∧ b < s.heap.length then f (s.obj b) else s.obj b := by
  unfold State.obj State.modify
  by_cases hab : a = b
  · subst hab
    by_cases hlt : a < s.heap.length
    · simp [hlt, List.getElem?_modify_eq, List.getElem?_eq_getElem hlt]
    · simp [hlt, List.getElem?_modify_eq, List.getElem?_eq_none (Nat.le_of_not_lt hlt)]
  · simp [hab, List.getElem?_modify_ne]

theorem State.obj_modify_self (s : State) (a : Nat) (f : channelOwner → channelOwner)
    (h : a < s.heap.length) : (s.modify a f).obj a = f (s.obj a) := by
  simp [State.obj_modify, h]

theorem State.obj_modify_ne (s : State) (a b : Nat) (f : channelOwner → channelOwner)
    (h : a ≠ b) : (s.modify a f).obj b = s.obj b := by
  simp [State.obj_modify, h]

theorem State.length_modify (s : State) (a : Nat) (f : channelOwner → channelOwner) :
    (s.modify a f).heap.length = s.heap.length := by
  simp [State.modify]

theorem State.connection_modify (s : State) (a : Nat) (f : channelOwner → channelOwner) :
    (s.modify a f).connection = s.connection := rfl

@[simp] theorem State.obj_registryStore (s : State) (g : String) (c a : Nat) :
    (registryStore s g c).obj a = s.obj a := rfl

@[simp] theorem State.objs_registryStore (s : State) (g : String) (c a : Nat) :
    (registryStore s g c).objs a = s.objs a := rfl

@[simp] theorem State.length_registryStore (s : State) (g : String) (c : Nat) :
    (registryStore s g c).heap.length = s.heap.length := rfl

@[simp] theorem State.connection_registryStore (s : State) (g : String) (c : Nat) :
    (registryStore s g c).connection.objects = GoMap.store s.connection.objects g c := rfl

@[simp] theorem State.connection_registryDelete (s : State) (g : String) :
    (registryDelete s g).connection.objects = GoMap.delete s.connection.objects g := rfl

@[simp] theorem State.obj_registryDelete (s : State) (g : String) (a : Nat) :
    (registryDelete s g).obj a = s.obj a := rfl

@[simp] theorem State.objs_registryDelete (s : State) (g : String) (a : Nat) :
    (registryDelete s g).objs a = s.objs a := rfl

@[simp] theorem State.length_registryDelete (s : State) (g : String) :
    (registryDelete s g).heap.length = s.heap.length := rfl

theorem State.obj_of_le (s : State) (a : Nat) (h : s.heap.length ≤ a) :
    s.obj a = channelOwner.zero := by
  simp [State.obj, List.getElem?_eq_none h]

/-! ## Subscription mirroring -/

theorem eventEmitter.ListenerCount_addEvent (e : eventEmitter) (name : String) (handler : Nat)
    (once : Bool) :
    (e.addEvent name handler once).ListenerCount name = e.ListenerCount name + 1 := by
  unfold eventEmitter.addEvent eventEmitter.ListenerCount
  cases h : GoMap.load e.events name <;> simp [GoMap.load_store_self]

/-- C9: `updateSubscription(e, b)` sends a message exactly when `e` is a key of
the object's event-subscription map; when it sends, it sends exactly one
message, without reply, with method `updateSubscription` and the params
`event` (the protocol event the map assigns to `e`) and `enabled` (`b`). -/
theorem updateSubscription_sends_iff_key (c : channelOwner) (e : String) (b : Bool) :
    (c.updateSubscription e b ≠ [] ↔ e ∈ GoMap.keys c.eventToSubscriptionMapping) ∧
    (∀ m ∈ c.updateSubscription e b,
      c.updateSubscription e b = [m] ∧ m.mode = SendMode.sendNoReplyInternal ∧
      m.guid = c.guid ∧ m.method = "updateSubscription" ∧
      ∃ p, GoMap.load c.eventToSubscriptionMapping e = some p ∧
        m.params = [("event", GoValue.str p), ("enabled", GoValue.bool b)]) := by
  unfold channelOwner.updateSubscription
  cases h : GoMap.load c.eventToSubscriptionMapping e with
  | none =>
    have := (GoMap.load_eq_none_iff _ _).1 h
    simp [this]
  | some p =>
    have hk : e ∈ GoMap.keys c.eventToSubscriptionMapping := by
      by_contra hn
      rw [(GoMap.load_eq_none_iff _ _).2 hn] at h
      cases h
    simp [hk, channelOwner.SendNoReplyInternal]

/-- C2: for an event `e` that is a key of the subscription map (mapped to `p`):
`On`/`Once` with zero listeners of `e` send exactly one subscribe message and
with at least one listener send none; `RemoveListener` that removes the last
listener sends exactly one unsubscribe message and one that leaves a listener
sends none.  Registering adds one listener. -/
theorem listener_count_transitions (c : channelOwner) (e p : String) (h : Nat)
    (hkey : GoMap.load c.eventToSubscriptionMapping e = some p) :
    (c.eventEmitter.ListenerCount e = 0 →
      (c.On e h).2 = [c.SendNoReplyInternal "updateSubscription"
        [("event", GoValue.str p), ("enabled", GoValue.bool true)]] ∧
      (c.Once e h).2 = [c.SendNoReplyInternal "updateSubscription"
        [("event", GoValue.str p), ("enabled", GoValue.bool true)]]) ∧
    (0 < c.eventEmitter.ListenerCount e → (c.On e h).2 = [] ∧ (c.Once e h).2 = []) ∧
    (0 < c.eventEmitter.ListenerCount e →
      (c.RemoveListener e h).1.eventEmitter.ListenerCount e = 0 →
      (c.RemoveListener e h).2 = [c.SendNoReplyInternal "updateSubscription"
        [("event", GoValue.str p), ("enabled", GoValue.bool false)]]) ∧
    (0 < (c.RemoveListener e h).1.eventEmitter.ListenerCount e →
      (c.RemoveListener e h).2 = []) ∧
    (c.On e h).1.eventEmitter.ListenerCount e = c.eventEmitter.ListenerCount e + 1 ∧
    (c.Once e h).1.eventEmitter.ListenerCount e = c.eventEmitter.ListenerCount e + 1 := by
  refine ⟨?_, ?_, ?_, ?_, ?_, ?_⟩
  · intro h0
    simp [channelOwner.On, channelOwner.Once, channelOwner.addEvent, h0,
      channelOwner.updateSubscription, hkey]
  · intro h0
    have : c.eventEmitter.ListenerCount e ≠ 0 := Nat.pos_iff_ne_zero.1 h0
    simp [channelOwner.On, channelOwner.Once, channelOwner.addEvent, this]
  · intro _ h0
    simp only [channelOwner.RemoveListener] at h0 ⊢
    simp [h0, channelOwner.updateSubscription, hkey, channelOwner.SendNoReplyInternal]
  · intro h0
    have h1 := Nat.pos_iff_ne_zero.1 h0
    simp only [channelOwner.RemoveListener] at h1 ⊢
    simp [h1]
  · simp [channelOwner.On, channelOwner.addEvent, eventEmitter.ListenerCount_addEvent]
  · simp [channelOwner.Once, channelOwner.addEvent, eventEmitter.ListenerCount_addEvent]

/-- Witness of C2: the first `On("request", ...)` of an object that mirrors
`request`. -/
theorem listener_count_transitions_witness :
    GoMap.load sampleOwner.eventToSubscriptionMapping "request" = some "request" ∧
    sampleOwner.eventEmitter.ListenerCount "request" = 0 ∧
    (sampleOwner.On "request" 1).2 = [sampleOwner.SendNoReplyInternal "updateSubscription"
        [("event", GoValue.str "request"), ("enabled", GoValue.bool true)]] :=
  ⟨by decide, by decide,
    ((listener_count_transitions sampleOwner "request" "request" 1 (by decide)).1
      (by decide)).1⟩

/-! ## Binding calls -/

/-- C3 at the failing input: when `f` panics with a value that does not
implement `error` (here the string of `panic("boom")`), `Call` sends nothing and a
panic leaves `Call`. -/
theorem Call_string_panic_escapes :
    (Call sampleEnv sampleBinding panicWithString).sent = [] ∧
    (Call sampleEnv sampleBinding panicWithString).panic =
      some (runtimeError "interface conversion") := by
  constructor <;> rfl

/-- Counterexample to C4: a function that returns 1 without failing and an
initializer whose frame resolves, but without a handle and without an
argument list: `Call` sends `reject`, not `resolve`. -/
theorem Call_bare_initializer_rejects :
    (∀ source args, returnOne source args = Except.ok (GoValue.int 1)) ∧
    (∃ source, callSource sampleEnv bareBinding = Except.ok source) ∧
    (Call sampleEnv bareBinding returnOne).sent =
      [bareBinding.Send "reject"
        [("error", GoValue.dict (serializeError sampleEnv "interface conversion"))]] ∧
    ¬ (∃ m ∈ (Call sampleEnv bareBinding returnOne).sent, m.method = "resolve") := by
  refine ⟨fun _ _ => rfl, ⟨_, rfl⟩, rfl, ?_⟩
  rintro ⟨m, hm, hmeth⟩
  have hs : (Call sampleEnv bareBinding returnOne).sent =
      [bareBinding.Send "reject"
        [("error", GoValue.dict (serializeError sampleEnv "interface conversion"))]] := rfl
  rw [hs] at hm
  simp only [List.mem_singleton] at hm
  subst hm
  simp [channelOwner.Send] at hmeth

/-- C4, amended: when the frame of the initializer resolves, its arguments
decode (a handle that resolves, or an argument list) and `f` returns `V` on
them, `Call` sends exactly one message, `resolve` with the params
`result` = `serializeArgument(V)`; no `reject` is sent and no panic leaves. -/
theorem Call_resolves (env : Env) (b : channelOwner) (f : BindingCallFunction)
    (source : BindingSource) (args : List GoValue) (V : GoValue)
    (hsrc : callSource env b = Except.ok source) (hargs : callArgs env b = Except.ok args)
    (hf : f source args = Except.ok V) :
    (Call env b f).sent = [b.Send "resolve" [("result", env.serializeArgument V)]] ∧
    (Call env b f).panic = none ∧
    (∀ m ∈ (Call env b f).sent, m.method = "resolve" ∧ m.method ≠ "reject") := by
  have hs : (Call env b f).sent = [b.Send "resolve" [("result", env.serializeArgument V)]] ∧
      (Call env b f).panic = none := by
    unfold Call callBody
    simp only [hsrc, hargs, hf]
    cases env.sendErr (b.Send "resolve" [("result", env.serializeArgument V)]) <;> simp
  refine ⟨hs.1, hs.2, ?_⟩
  intro m hm
  rw [hs.1] at hm
  simp only [List.mem_singleton] at hm
  subst hm
  simp [channelOwner.Send]

/-- Witness of the amended C4: a function that returns 1, called with one
argument. -/
theorem Call_resolves_witness :
    (Call sampleEnv sampleBinding returnOne).sent =
      [sampleBinding.Send "resolve" [("result", sampleEnv.serializeArgument (GoValue.int 1))]] ∧
    (Call sampleEnv sampleBinding returnOne).panic = none ∧
    (∀ m ∈ (Call sampleEnv sampleBinding returnOne).sent,
      m.method = "resolve" ∧ m.method ≠ "reject") :=
  Call_resolves sampleEnv sampleBinding returnOne
    { Context := GoValue.object "context@1", Page := GoValue.object "page@1",
      Frame := GoValue.object "frame@1" }
    [GoValue.int 7] (GoValue.int 1) rfl rfl rfl

/-! ## Creation and adoption -/

theorem State.objs_modify (s : State) (a : Nat) (f : channelOwner → channelOwner) (b : Nat) :
    (s.modify a f).objs b =
      if a = b ∧ b < s.heap.length then (f (s.obj b)).objects else s.objs b := by
  unfold State.objs
  rw [State.obj_modify]
  split <;> rfl

/-- What `adopt` does to a child that lies in no child set but that of its
parent `p`, under its guid. -/
theorem adopt_effect (s : State) (c child p : Nat)
    (hc : c < s.heap.length) (hchild : child < s.heap.length)
    (hp : (s.obj child).parent = some p)
    (hown : ∀ q < s.heap.length, ∀ e ∈ s.objs q,
      e.2 = child → q = p ∧ e.1 = (s.obj child).guid) :
    ∃ s', adopt s c child = some s' ∧
      (adoptDelete s child p).connection = s.connection ∧
      (adoptStore s c child p).connection = s.connection ∧
      s'.connection = s.connection ∧
      (s'.obj child).parent = some c ∧
      (s'.obj child).guid = (s.obj child).guid ∧
      GoMap.load (s'.objs c) (s'.obj child).guid = some child ∧
      (∀ q e, e ∈ s'.objs q → e.2 = child → q = c) ∧
      (p ≠ c → ∀ e ∈ s'.objs p, e.2 ≠ child) := by
  have hobjs0 : ∀ q, s.heap.length ≤ q → s.objs q = [] := by
    intro q hq
    simp [State.objs, State.obj_of_le s q hq, channelOwner.zero]
  have hown : ∀ q e, e ∈ s.objs q → e.2 = child → q = p ∧ e.1 = (s.obj child).guid := by
    intro q e he hec
    by_cases hq : q < s.heap.length
    · exact hown q hq e he hec
    · rw [hobjs0 q (Nat.le_of_not_lt hq)] at he
      cases he
  have hlen1 : (adoptDelete s child p).heap.length = s.heap.length := State.length_modify _ _ _
  have hlen2 : (adoptStore s c child p).heap.length = s.heap.length := by
    unfold adoptStore
    rw [State.length_modify, hlen1]
  have hobjs3 : ∀ q, ((adoptStore s c child p).modify child
      (fun o => { o with parent := some c })).objs q = (adoptStore s c child p).objs q := by
    intro q
    rw [State.objs_modify]
    split <;> rfl
  have hobjs2 : ∀ q, q ≠ c → (adoptStore s c child p).objs q = (adoptDelete s child p).objs q := by
    intro q hq
    unfold adoptStore
    rw [State.objs_modify, if_neg (fun h => hq h.1.symm)]
  have hobjs : ∀ q, q ≠ c → ∀ e, e ∈
      ((adoptStore s c child p).modify child (fun o => { o with parent := some c })).objs q →
      e.2 ≠ child := by
    intro q hq e he hec
    rw [hobjs3, hobjs2 q hq] at he
    unfold adoptDelete at he
    rw [State.objs_modify] at he
    split at he
    · rename_i hqp
      have he2 : e ∈ GoMap.delete (s.objs q) (s.obj child).guid := he
      rw [GoMap.mem_delete] at he2
      exact he2.2 (hown q e he2.1 hec).2
    · rename_i hqp
      have hq2 := (hown q e he hec).1
      have hlt : q < s.heap.length := by
        by_contra hn
        have : s.objs q = [] := by
          simp [State.objs, State.obj_of_le s q (Nat.le_of_not_lt hn), channelOwner.zero]
        rw [this] at he
        cases he
      exact hqp ⟨hq2.symm, hlt⟩
  have hguid : (((adoptStore s c child p).modify child
      (fun o => { o with parent := some c })).obj child).guid = (s.obj child).guid := by
    rw [State.obj_modify_self _ _ _ (by rw [hlen2]; exact hchild)]
    show ((adoptStore s c child p).obj child).guid = _
    unfold adoptStore
    rw [State.obj_modify]
    have h1 : ((adoptDelete s child p).obj child).guid = (s.obj child).guid := by
      unfold adoptDelete
      rw [State.obj_modify]
      split <;> rfl
    split
    · exact h1
    · exact h1
  refine ⟨(adoptStore s c child p).modify child (fun o => { o with parent := some c }),
    by simp [adopt, hc, hchild, hp], rfl, rfl, rfl, ?_, hguid, ?_, ?_, ?_⟩
  · rw [State.obj_modify_self _ _ _ (by rw [hlen2]; exact hchild)]
  · rw [hguid, hobjs3]
    unfold adoptStore
    rw [State.objs_modify, if_pos ⟨rfl, by rw [hlen1]; exact hc⟩]
    exact GoMap.load_store_self _ _ _
  · intro q e he hec
    by_contra hq
    exact hobjs q hq e he hec
  · intro hpc e he
    exact hobjs p hpc e he

/-! ## The part of dispose before the loop -/

theorem State.objs_of_le (s : State) (a : Nat) (h : s.heap.length ≤ a) : s.objs a = [] := by
  simp [State.objs, State.obj_of_le s a h, channelOwner.zero]

theorem collected_idem (reason : List String) (old : Bool) :
    collected reason (collected reason old) = collected reason old := by
  cases reason <;> rfl

theorem unlinkFromParent_length (s : State) (c : Nat) :
    (unlinkFromParent s c).heap.length = s.heap.length := by
  unfold unlinkFromParent
  split
  · exact State.length_modify _ _ _
  · rfl

theorem unlinkFromParent_obj (s : State) (c a : Nat) :
    (unlinkFromParent s c).obj a =
      { s.obj a with objects :=
          if (s.obj c).parent = some a then GoMap.delete (s.objs a) (s.obj c).guid
          else s.objs a } := by
  unfold unlinkFromParent
  split
  · rename_i p hp
    rw [State.obj_modify, hp]
    by_cases hpa : p = a
    · subst hpa
      by_cases hlt : p < s.heap.length
      · simp [hlt, State.objs]
      · have hz := State.obj_of_le s p (Nat.le_of_not_lt hlt)
        simp [hlt, State.objs, hz, channelOwner.zero, GoMap.delete]
    · have : ¬ (some p = some a) := fun h => hpa (Option.some.inj h)
      simp [hpa, this, State.objs]
  · rename_i hp
    simp [hp, State.objs]

theorem disposeHead_length (s : State) (c : Nat) (reason : List String) :
    (disposeHead s c reason).heap.length = s.heap.length := by
  unfold disposeHead recordReason
  cases reason with
  | nil => exact unlinkFromParent_length s c
  | cons r rs =>
    show ((registryDelete (unlinkFromParent s c) (s.obj c).guid).modify c _).heap.length = _
    rw [State.length_modify]
    exact unlinkFromParent_length s c

theorem disposeHead_reg (s : State) (c : Nat) (reason : List String) :
    (disposeHead s c reason).connection.objects =
      GoMap.delete s.connection.objects (s.obj c).guid := by
  unfold disposeHead recordReason
  cases reason with
  | nil =>
    show GoMap.delete (unlinkFromParent s c).connection.objects _ = _
    unfold unlinkFromParent
    split <;> rfl
  | cons r rs =>
    show GoMap.delete (unlinkFromParent s c).connection.objects _ = _
    unfold unlinkFromParent
    split <;> rfl

theorem disposeHead_obj (s : State) (c : Nat) (reason : List String) (a : Nat) :
    (disposeHead s c reason).obj a =
      { s.obj a with
        objects :=
          if (s.obj c).parent = some a then GoMap.delete (s.objs a) (s.obj c).guid
          else s.objs a
        wasCollected :=
          if a = c ∧ c < s.heap.length then collected reason (s.obj a).wasCollected
          else (s.obj a).wasCollected } := by
  unfold disposeHead recordReason
  cases reason with
  | nil =>
    show (unlinkFromParent s c).obj a = _
    rw [unlinkFromParent_obj]
    simp [collected]
  | cons r rs =>
    show ((registryDelete (unlinkFromParent s c) (s.obj c).guid).modify c _).obj a = _
    rw [State.obj_modify]
    simp only [State.obj_registryDelete, State.length_registryDelete, unlinkFromParent_length,
      unlinkFromParent_obj]
    by_cases hca : c = a
    · subst hca
      by_cases hlt : c < s.heap.length
      · simp [hlt, collected]
      · simp [hlt]
    · have hac : ¬ (a = c) := fun h => hca h.symm
      simp [hca, hac]

theorem disposeHead_objs (s : State) (c : Nat) (reason : List String) (a : Nat) :
    (disposeHead s c reason).objs a =
      if (s.obj c).parent = some a then GoMap.delete (s.objs a) (s.obj c).guid
      else s.objs a := by
  unfold State.objs
  rw [disposeHead_obj]
  rfl

/-! ## Composition of effects -/

theorem hitBy_iff (s : State) (D : List Nat) (y : Nat) (k : String) :
    hitBy s D y k = true ↔ ∃ z ∈ D, (s.obj z).parent = some y ∧ (s.obj z).guid = k := by
  simp [hitBy, List.any_eq_true]

theorem hitBy_eq_false_iff (s : State) (D : List Nat) (y : Nat) (k : String) :
    hitBy s D y k = false ↔ ∀ z ∈ D, (s.obj z).parent = some y → (s.obj z).guid ≠ k := by
  rw [← Bool.not_eq_true, hitBy_iff]
  constructor
  · intro h z hz hp hg
    exact h ⟨z, hz, hp, hg⟩
  · rintro h ⟨z, hz, hp, hg⟩
    exact h z hz hp hg

theorem hitBy_append (s : State) (D1 D2 : List Nat) (y : Nat) (k : String) :
    hitBy s (D1 ++ D2) y k = (hitBy s D1 y k || hitBy s D2 y k) := by
  simp [hitBy, List.any_append]

theorem hitBy_congr (s s1 : State) (D : List Nat)
    (hg : ∀ a, (s1.obj a).guid = (s.obj a).guid)
    (hp : ∀ a, (s1.obj a).parent = (s.obj a).parent) :
    hitBy s1 D = hitBy s D := by
  funext y k
  simp [hitBy, hg, hp]

theorem guidsOf_congr (s s1 : State) (D : List Nat)
    (hg : ∀ a, (s1.obj a).guid = (s.obj a).guid) :
    guidsOf s1 D = guidsOf s D := by
  simp [guidsOf, hg]

theorem Eff.fields (h : Eff s s' D reason) (a : Nat) :
    (s'.obj a).guid = (s.obj a).guid ∧ (s'.obj a).parent = (s.obj a).parent ∧
    (s'.obj a).connection = (s.obj a).connection := by
  by_cases ha : a < s.heap.length
  · rw [h.obj a ha]
    unfold disposedObj
    split <;> exact ⟨rfl, rfl, rfl⟩
  · rw [State.obj_of_le s a (Nat.le_of_not_lt ha),
      State.obj_of_le s' a (by rw [h.len]; exact Nat.le_of_not_lt ha)]
    exact ⟨rfl, rfl, rfl⟩

theorem Eff.objs_eq (h : Eff s s' D reason) (a : Nat) (ha : a < s.heap.length) :
    s'.objs a = if a ∈ D then [] else (s.objs a).filter (fun e => !hitBy s D a e.1) := by
  unfold State.objs
  rw [h.obj a ha]
  unfold disposedObj
  split <;> rfl

theorem Eff.mem_objs (h : Eff s s' D reason) {p : Nat} {e : String × Nat}
    (he : e ∈ s'.objs p) : e ∈ s.objs p ∧ p ∉ D ∧ hitBy s D p e.1 = false := by
  by_cases hp : p < s.heap.length
  · rw [h.objs_eq p hp] at he
    split at he
    · cases he
    · rename_i hD
      rw [List.mem_filter] at he
      exact ⟨he.1, hD, by simpa using he.2⟩
  · rw [State.objs_of_le s' p (by rw [h.len]; exact Nat.le_of_not_lt hp)] at he
    cases he

theorem Eff.mem_objs_of (h : Eff s s' D reason) {p : Nat} {e : String × Nat}
    (he : e ∈ s.objs p) (hD : p ∉ D) (hit : hitBy s D p e.1 = false) : e ∈ s'.objs p := by
  have hp : p < s.heap.length := by
    by_contra hn
    rw [State.objs_of_le s p (Nat.le_of_not_lt hn)] at he
    cases he
  rw [h.objs_eq p hp, if_neg hD, List.mem_filter]
  exact ⟨he, by simp [hit]⟩

theorem Eff.objs_of_mem (h : Eff s s' D reason) {a : Nat} (ha : a ∈ D) : s'.objs a = [] := by
  rw [h.objs_eq a (h.valid a ha), if_pos ha]

theorem Eff.refl_nil (s : State) (reason : List String) : Eff s s [] reason := by
  refine ⟨rfl, ?_, ?_, ?_⟩
  · intro a _
    simp [disposedObj, hitBy, State.objs]
  · simp [guidsOf]
  · intro z hz
    cases hz

theorem Eff.trans (h1 : Eff s s1 D1 reason) (h2 : Eff s1 s2 D2 reason) :
    Eff s s2 (D1 ++ D2) reason := by
  have hg : ∀ a, (s1.obj a).guid = (s.obj a).guid := fun a => (h1.fields a).1
  have hp : ∀ a, (s1.obj a).parent = (s.obj a).parent := fun a => (h1.fields a).2.1
  refine ⟨h2.len.trans h1.len, ?_, ?_, ?_⟩
  · intro a ha
    have ha1 : a < s1.heap.length := by rw [h1.len]; exact ha
    rw [h2.obj a ha1]
    unfold disposedObj
    rw [hitBy_congr s s1 D2 hg hp]
    simp only [State.objs, h1.obj a ha, List.mem_append]
    unfold disposedObj
    by_cases hD1 : a ∈ D1 <;> by_cases hD2 : a ∈ D2 <;>
      simp [hD1, hD2, collected_idem, State.objs, List.filter_filter, hitBy_append, Bool.and_comm]
  · rw [h2.reg, h1.reg, guidsOf_congr s s1 D2 hg, List.filter_filter]
    apply List.filter_congr
    intro e _
    simp [guidsOf, Bool.and_comm]
  · intro z hz
    rcases List.mem_append.1 hz with hz | hz
    · exact h1.valid z hz
    · rw [← h1.len]
      exact h2.valid z hz

theorem Eff.head_loop_clear (s s4 : State) (c : Nat) (D : List Nat) (reason : List String)
    (hc : c < s.heap.length) (h : Eff (disposeHead s c reason) s4 D reason) :
    Eff s (s4.modify c (fun co => { co with objects := [] })) (c :: D) reason := by
  have hlen : (disposeHead s c reason).heap.length = s.heap.length := disposeHead_length s c reason
  have hg : ∀ a, ((disposeHead s c reason).obj a).guid = (s.obj a).guid := by
    intro a; rw [disposeHead_obj]
  have hp : ∀ a, ((disposeHead s c reason).obj a).parent = (s.obj a).parent := by
    intro a; rw [disposeHead_obj]
  refine ⟨?_, ?_, ?_, ?_⟩
  · rw [State.length_modify, h.len, hlen]
  · intro a ha
    have ha1 : a < (disposeHead s c reason).heap.length := by rw [hlen]; exact ha
    rw [State.obj_modify, h.len, hlen, h.obj a ha1]
    unfold disposedObj
    rw [hitBy_congr s _ D hg hp]
    simp only [State.objs, disposeHead_obj, List.mem_cons]
    by_cases hca : c = a
    · subst hca
      by_cases hD : c ∈ D <;> simp [hD, ha, collected_idem]
    · have hac : ¬ (a = c) := fun h => hca h.symm
      by_cases hD : a ∈ D
      · simp [hD, hca, hac]
      · simp only [hD, hca, hac, false_and, if_false, or_self]
        congr 1
        by_cases hpar : (s.obj c).parent = some a
        · simp only [hpar, if_true, GoMap.delete, List.filter_filter]
          apply List.filter_congr
          intro e _
          by_cases hk : e.1 = (s.obj c).guid
          · simp [hitBy, hpar, hk]
          · have hk2 : ¬ ((s.obj c).guid = e.1) := fun h => hk h.symm
            have h1 : (e.1 != (s.obj c).guid) = true := by simpa using hk
            have h2 : ((s.obj c).guid == e.1) = false := by simpa using hk2
            simp [hitBy, hpar, h1, h2]
        · simp only [hpar, if_false]
          apply List.filter_congr
          intro e _
          simp [hitBy, hpar]
  · rw [State.connection_modify, h.reg, disposeHead_reg, guidsOf_congr s _ D hg, GoMap.delete,
      List.filter_filter]
    apply List.filter_congr
    intro e _
    simp [guidsOf, Bool.and_comm]
    tauto
  · intro z hz
    rcases List.mem_cons.1 hz with hz | hz
    · rw [hz]; exact hc
    · rw [← hlen]; exact h.valid z hz

/-! ## States along a run of dispose -/

theorem EntriesOwned.entry (h : EntriesOwned s) {p : Nat} {e : String × Nat}
    (he : e ∈ s.objs p) :
    e.2 < s.heap.length ∧ (s.obj e.2).parent = some p ∧ (s.obj e.2).guid = e.1 := by
  by_cases hp : p < s.heap.length
  · exact h p hp e he
  · rw [State.objs_of_le s p (Nat.le_of_not_lt hp)] at he
    cases he

theorem GoMap.eq_of_key_eq {α : Type} {m : GoMap α} (hm : (GoMap.keys m).Nodup)
    {e1 e2 : String × α} (h1 : e1 ∈ m) (h2 : e2 ∈ m) (hk : e1.1 = e2.1) : e1 = e2 :=
  List.inj_on_of_nodup_map hm h1 h2 hk

theorem KeysNodup.nodup_at (h : KeysNodup s) (p : Nat) : (GoMap.keys (s.objs p)).Nodup := by
  by_cases hp : p < s.heap.length
  · exact h p hp
  · rw [State.objs_of_le s p (Nat.le_of_not_lt hp)]
    exact List.nodup_nil

theorem Shrinks.owned_of (h : Shrinks s s') (ho : EntriesOwned s) : EntriesOwned s' := by
  intro p _ e he
  have h1 := ho.entry ((h.sub p).subset he)
  have hf := h.fields e.2
  rw [h.len, hf.1, hf.2.1]
  exact h1

theorem Shrinks.keys_of (h : Shrinks s s') (hk : KeysNodup s) : KeysNodup s' := by
  intro p _
  exact List.Nodup.sublist ((h.sub p).map _) (hk.nodup_at p)

theorem Shrinks.connected_of (h : Shrinks s s') (hc : Connected s) : Connected s' := by
  intro a ha
  rw [(h.fields a).2.2]
  exact hc a (h.len ▸ ha)

theorem Shrinks.isChild (h : Shrinks s s') {p a : Nat} (hc : IsChild s' p a) : IsChild s p a := by
  obtain ⟨e, he, hea⟩ := hc
  exact ⟨e, (h.sub p).subset he, hea⟩

theorem Shrinks.transGen (h : Shrinks s s') {p a : Nat}
    (hc : Relation.TransGen (IsChild s') p a) : Relation.TransGen (IsChild s) p a :=
  Relation.TransGen.mono (fun _ _ hab => h.isChild hab) hc

theorem Eff.shrinks (h : Eff s s' D reason) : Shrinks s s' := by
  refine ⟨h.len, h.fields, ?_⟩
  intro a
  by_cases ha : a < s.heap.length
  · rw [h.objs_eq a ha]
    split
    · exact List.nil_sublist _
    · exact List.filter_sublist _
  · rw [State.objs_of_le s' a (by rw [h.len]; exact Nat.le_of_not_lt ha)]
    exact List.nil_sublist _

theorem disposeHead_shrinks (s : State) (c : Nat) (reason : List String) :
    Shrinks s (disposeHead s c reason) := by
  refine ⟨disposeHead_length s c reason, ?_, ?_⟩
  · intro a
    rw [disposeHead_obj]
    exact ⟨rfl, rfl, rfl⟩
  · intro a
    rw [disposeHead_objs]
    split
    · exact List.filter_sublist _
    · exact List.Sublist.refl _

theorem disposeHead_mem_objs (s : State) (c : Nat) (reason : List String) (p : Nat)
    (e : String × Nat) :
    e ∈ (disposeHead s c reason).objs p ↔
      e ∈ s.objs p ∧ ¬ ((s.obj c).parent = some p ∧ (s.obj c).guid = e.1) := by
  rw [disposeHead_objs]
  split
  · rename_i hp
    rw [GoMap.mem_delete]
    constructor
    · rintro ⟨h1, h2⟩
      exact ⟨h1, fun h => h2 h.2.symm⟩
    · rintro ⟨h1, h2⟩
      exact ⟨h1, fun h => h2 ⟨hp, h.symm⟩⟩
  · rename_i hp
    constructor
    · intro h1
      exact ⟨h1, fun h => hp h.1⟩
    · intro h
      exact h.1

theorem TransGen.target {r : Nat → Nat → Prop} {a z : Nat} (h : Relation.TransGen r a z) :
    ∃ q, r q z := by
  cases h with
  | single h1 => exact ⟨a, h1⟩
  | tail _ h1 => exact ⟨_, h1⟩

theorem Eff.noIn (h : Eff s s' D reason) (ho : EntriesOwned s) (hB : NoIn s B) :
    NoIn s' (B ++ D) := by
  intro p e he hmem
  obtain ⟨he1, hpD, hit⟩ := h.mem_objs he
  rcases List.mem_append.1 hmem with hm | hm
  · exact hB p e he1 hm
  · have h1 := ho.entry he1
    rw [hitBy_eq_false_iff] at hit
    exact hit e.2 hm h1.2.1 h1.2.2

theorem Eff.survive_or_hit (h : Eff s s' D reason) (ho : EntriesOwned s) (hk : KeysNodup s)
    (htar : ∀ z ∈ D, ∃ q, IsChild s q z) {p : Nat} {e : String × Nat}
    (he : e ∈ s.objs p) (hp : p ∉ D) : e ∈ s'.objs p ∨ e.2 ∈ D := by
  cases hit : hitBy s D p e.1 with
  | false => exact Or.inl (h.mem_objs_of he hp hit)
  | true =>
    right
    obtain ⟨z, hz, hzp, hzg⟩ := (hitBy_iff s D p e.1).1 hit
    obtain ⟨q, ez, hez, hezz⟩ := htar z hz
    have h1 := ho.entry hez
    rw [hezz, hzp, hzg] at h1
    have hq : q = p := (Option.some.inj h1.2.1).symm
    subst hq
    have := GoMap.eq_of_key_eq (hk.nodup_at q) he hez h1.2.2
    rw [this, hezz]
    exact hz

theorem disposeLoop_nil (rec : State → Nat → Option State) (c : Nat) (s : State) :
    disposeLoop rec c [] s = some s := rfl

theorem disposeLoop_cons (rec : State → Nat → Option State) (c : Nat) (e : String × Nat)
    (L : GoMap Nat) (s : State) :
    disposeLoop rec c (e :: L) s =
      if e ∈ s.objs c then
        match rec s e.2 with
        | some s1 => disposeLoop rec c L s1
        | none => none
      else disposeLoop rec c L s := by
  unfold disposeLoop
  rw [List.foldlM_cons]
  split
  · cases rec s e.2 <;> rfl
  · rfl

/-! ## What a run of dispose does -/

theorem disposeLoop_spec (rec : State → Nat → Option State) (reason : List String) (c : Nat)
    (hrec : ∀ st a st', rec st a = some st' → ∃ D, DisposeSpec st a st' D reason) :
    ∀ (L : GoMap Nat) (st s4 : State), disposeLoop rec c L st = some s4 →
      ∃ D, LoopSpec st c L s4 D reason := by
  intro L
  induction L with
  | nil =>
    intro st s4 h
    rw [disposeLoop_nil] at h
    cases h
    refine ⟨[], Eff.refl_nil st reason, ?_, ?_⟩
    · intro z hz; cases hz
    · intro _ _ B _ _
      refine ⟨?_, List.nodup_nil, ?_, ?_⟩
      · intro z hz; cases hz
      · intro p hp; cases hp
      · intro e he; cases he
  | cons e L ih =>
    intro st s4 h
    rw [disposeLoop_cons] at h
    by_cases hmem : e ∈ st.objs c
    · rw [if_pos hmem] at h
      cases hr : rec st e.2 with
      | none => rw [hr] at h; cases h
      | some st1 =>
        rw [hr] at h
        obtain ⟨D1, hE1, hT1, hC1⟩ := hrec st e.2 st1 hr
        obtain ⟨D2, hE2, hT2, hC2⟩ := ih st1 s4 h
        have hsh : Shrinks st st1 := hE1.shrinks
        refine ⟨(e.2 :: D1) ++ D2, hE1.trans hE2, ?_, ?_⟩
        · intro z hz
          rcases List.mem_append.1 hz with hz | hz
          · rcases List.mem_cons.1 hz with hz | hz
            · rw [hz]
              exact Relation.TransGen.single ⟨e, hmem, rfl⟩
            · exact Relation.TransGen.head ⟨e, hmem, rfl⟩ (hT1 z hz)
          · exact hsh.transGen (hT2 z hz)
        · intro ho hk B hB hcB
          obtain ⟨hd1, hn1, hcl1⟩ := hC1 ho hk B hB
          have heB : e.2 ∉ B := hB c e hmem
          have hB1 : NoIn st1 (B ++ (e.2 :: D1)) := hE1.noIn ho hB
          obtain ⟨hd2, hn2, hcl2, hcl3⟩ :=
            hC2 (hsh.owned_of ho) (hsh.keys_of hk) (B ++ (e.2 :: D1)) hB1
              (List.mem_append.2 (Or.inl hcB))
          have hdisj1 : ∀ z ∈ e.2 :: D1, z ∉ B := by
            intro z hz
            rcases List.mem_cons.1 hz with hz | hz
            · rw [hz]; exact heB
            · exact hd1 z hz
          have htar : ∀ z ∈ e.2 :: D1, ∃ q, IsChild st q z := by
            intro z hz
            rcases List.mem_cons.1 hz with hz | hz
            · rw [hz]; exact ⟨c, e, hmem, rfl⟩
            · exact TransGen.target (hT1 z hz)
          have hc1 : c ∉ e.2 :: D1 := fun hc => hdisj1 c hc hcB
          refine ⟨?_, ?_, ?_, ?_⟩
          · intro z hz
            rcases List.mem_append.1 hz with hz | hz
            · exact hdisj1 z hz
            · exact fun hzB => hd2 z hz (List.mem_append.2 (Or.inl hzB))
          · rw [List.nodup_append]
            refine ⟨hn1, hn2, ?_⟩
            intro z hz1 hz2
            exact hd2 z hz2 (List.mem_append.2 (Or.inr hz1))
          · intro p hp e' he'
            rcases List.mem_append.1 hp with hp | hp
            · rcases hcl1 p hp e' he' with h1 | h1
              · exact List.mem_append.2 (Or.inl h1)
              · exfalso
                have h2 := (ho.entry hmem).2.1
                rw [h1.1] at h2
                have : p = c := Option.some.inj h2
                rw [this] at hp
                exact hc1 hp
            · have hp1 : p ∉ e.2 :: D1 :=
                fun hp1 => hd2 p hp (List.mem_append.2 (Or.inr hp1))
              rcases hE1.survive_or_hit ho hk htar he' hp1 with h1 | h1
              · exact List.mem_append.2 (Or.inr (hcl2 p hp e' h1))
              · exact List.mem_append.2 (Or.inl h1)
          · intro e' he' hin
            rcases List.mem_cons.1 he' with he' | he'
            · rw [he']
              exact List.mem_append.2 (Or.inl (List.mem_cons_self _ _))
            · rcases hE1.survive_or_hit ho hk htar hin hc1 with h1 | h1
              · exact List.mem_append.2 (Or.inr (hcl3 e' he' h1))
              · exact List.mem_append.2 (Or.inl h1)
    · rw [if_neg hmem] at h
      obtain ⟨D, hE, hT, hC⟩ := ih st s4 h
      refine ⟨D, hE, hT, ?_⟩
      intro ho hk B hB hcB
      obtain ⟨hd, hn, hcl2, hcl3⟩ := hC ho hk B hB hcB
      refine ⟨hd, hn, hcl2, ?_⟩
      intro e' he' hin
      rcases List.mem_cons.1 he' with he' | he'
      · rw [he'] at hin
        exact absurd hin hmem
      · exact hcl3 e' he' hin

theorem dispose_succ (fuel : Nat) (s : State) (c : Nat) (reason : List String) :
    dispose (fuel + 1) s c reason =
      if c < s.heap.length then
        match (s.obj c).connection with
        | none => none
        | some _ =>
          match disposeLoop (fun st a => dispose fuel st a reason) c
              ((disposeHead s c reason).objs c) (disposeHead s c reason) with
          | none => none
          | some s4 => some (s4.modify c (fun co => { co with objects := [] }))
      else none := by
  rw [dispose]

theorem dispose_spec (reason : List String) :
    ∀ (fuel : Nat) (s : State) (o : Nat) (s' : State), dispose fuel s o reason = some s' →
      ∃ D, DisposeSpec s o s' D reason := by
  intro fuel
  induction fuel with
  | zero =>
    intro s o s' h
    simp [dispose] at h
  | succ n ih =>
    intro s o s' h
    rw [dispose_succ] at h
    by_cases ho : o < s.heap.length
    · rw [if_pos ho] at h
      cases hconn : (s.obj o).connection with
      | none => rw [hconn] at h; cases h
      | some u =>
        rw [hconn] at h
        simp only [] at h
        cases hl : disposeLoop (fun st a => dispose n st a reason) o
            ((disposeHead s o reason).objs o) (disposeHead s o reason) with
        | none => rw [hl] at h; cases h
        | some s4 =>
          rw [hl] at h
          simp only [Option.some.injEq] at h
          subst h
          obtain ⟨D, hE, hT, hC⟩ := disposeLoop_spec (fun st a => dispose n st a reason) reason o
            (fun st a st' hst => ih st a st' hst) _ _ _ hl
          have hsh := disposeHead_shrinks s o reason
          refine ⟨D, Eff.head_loop_clear s s4 o D reason ho hE, ?_, ?_⟩
          · intro z hz
            exact hsh.transGen (hT z hz)
          · intro hown hk B hB
            have hB3 : NoIn (disposeHead s o reason) (o :: B) := by
              intro p e he hmem
              rw [disposeHead_mem_objs] at he
              rcases List.mem_cons.1 hmem with hm | hm
              · have h1 := hown.entry he.1
                rw [hm] at h1
                exact he.2 ⟨h1.2.1, h1.2.2⟩
              · exact hB p e he.1 hm
            obtain ⟨hd, hn, hcl2, hcl3⟩ :=
              hC (hsh.owned_of hown) (hsh.keys_of hk) (o :: B) hB3 (List.mem_cons_self _ _)
            refine ⟨?_, ?_, ?_⟩
            · intro z hz hzB
              exact hd z hz (List.mem_cons_of_mem _ hzB)
            · rw [List.nodup_cons]
              exact ⟨fun hoD => hd o hoD (List.mem_cons_self _ _), hn⟩
            · intro p hp e he
              by_cases hdel : (s.obj o).parent = some p ∧ (s.obj o).guid = e.1
              · exact Or.inr hdel
              · left
                have he3 : e ∈ (disposeHead s o reason).objs p :=
                  (disposeHead_mem_objs s o reason p e).2 ⟨he, hdel⟩
                rcases List.mem_cons.1 hp with hp | hp
                · rw [hp] at he3
                  exact List.mem_cons_of_mem _ (hcl3 e he3 he3)
                · exact List.mem_cons_of_mem _ (hcl2 p hp e he3)
    · rw [if_neg ho] at h
      cases h

/-! ## dispose returns -/

theorem length_le_of_nodup_lt (l : List Nat) (N : Nat) (hn : l.Nodup) (hb : ∀ b ∈ l, b < N) :
    l.length ≤ N := by
  have h1 : l.toFinset ⊆ Finset.range N := by
    intro b hbm
    rw [List.mem_toFinset] at hbm
    exact Finset.mem_range.2 (hb b hbm)
  have h2 := Finset.card_le_card h1
  rw [List.toFinset_card_of_nodup hn, Finset.card_range] at h2
  exact h2

theorem disposeHead_noIn (s : State) (o : Nat) (reason : List String) (B : List Nat)
    (hown : EntriesOwned s) (hB : NoIn s B) : NoIn (disposeHead s o reason) (o :: B) := by
  intro p e he hmem
  rw [disposeHead_mem_objs] at he
  rcases List.mem_cons.1 hmem with hm | hm
  · have h1 := hown.entry he.1
    rw [hm] at h1
    exact he.2 ⟨h1.2.1, h1.2.2⟩
  · exact hB p e he.1 hm

theorem disposeLoop_returns (reason : List String) (n : Nat) (o : Nat)
    (ih : ∀ (s : State) (a : Nat) (B : List Nat), EntriesOwned s → KeysNodup s → Connected s →
      NoIn s B → (a :: B).Nodup → (∀ b ∈ a :: B, b < s.heap.length) →
      s.heap.length < n + B.length → ∃ s', dispose n s a reason = some s') :
    ∀ (L : GoMap Nat) (st : State) (B : List Nat), EntriesOwned st → KeysNodup st →
      Connected st → NoIn st B → B.Nodup → (∀ b ∈ B, b < st.heap.length) →
      st.heap.length < n + B.length →
      ∃ s4, disposeLoop (fun st a => dispose n st a reason) o L st = some s4 := by
  intro L
  induction L with
  | nil =>
    intro st B _ _ _ _ _ _ _
    exact ⟨st, rfl⟩
  | cons e L ihL =>
    intro st B hown hk hconn hB hnd hval hlen
    rw [disposeLoop_cons]
    by_cases hmem : e ∈ st.objs o
    · rw [if_pos hmem]
      have heB : e.2 ∉ B := hB o e hmem
      have hev : e.2 < st.heap.length := (hown.entry hmem).1
      have hnd1 : (e.2 :: B).Nodup := List.nodup_cons.2 ⟨heB, hnd⟩
      have hval1 : ∀ b ∈ e.2 :: B, b < st.heap.length := by
        intro b hb
        rcases List.mem_cons.1 hb with hb | hb
        · rw [hb]; exact hev
        · exact hval b hb
      obtain ⟨st1, hst1⟩ := ih st e.2 B hown hk hconn hB hnd1 hval1 hlen
      simp only [hst1]
      obtain ⟨D1, hE1, _, hC1⟩ := dispose_spec reason n st e.2 st1 hst1
      obtain ⟨hd1, hn1, _⟩ := hC1 hown hk B hB
      have hsh := hE1.shrinks
      apply ihL st1 (B ++ (e.2 :: D1)) (hsh.owned_of hown) (hsh.keys_of hk) (hsh.connected_of hconn)
        (hE1.noIn hown hB)
      · rw [List.nodup_append]
        refine ⟨hnd, hn1, ?_⟩
        intro z hz1 hz2
        rcases List.mem_cons.1 hz2 with hz2 | hz2
        · rw [hz2] at hz1; exact heB hz1
        · exact hd1 z hz2 hz1
      · intro b hb
        rw [hsh.len]
        rcases List.mem_append.1 hb with hb | hb
        · exact hval b hb
        · exact hE1.valid b hb
      · rw [hsh.len, List.length_append]
        omega
    · rw [if_neg hmem]
      exact ihL st B hown hk hconn hB hnd hval hlen

theorem dispose_returns (reason : List String) :
    ∀ (n : Nat) (s : State) (o : Nat) (B : List Nat), EntriesOwned s → KeysNodup s →
      Connected s → NoIn s B → (o :: B).Nodup → (∀ b ∈ o :: B, b < s.heap.length) →
      s.heap.length < n + B.length → ∃ s', dispose n s o reason = some s' := by
  intro n
  induction n with
  | zero =>
    intro s o B _ _ _ _ hnd hval hlen
    have := length_le_of_nodup_lt (o :: B) s.heap.length hnd hval
    simp only [List.length_cons] at this
    omega
  | succ n ih =>
    intro s o B hown hk hconn hB hnd hval hlen
    have ho : o < s.heap.length := hval o (List.mem_cons_self _ _)
    rw [dispose_succ, if_pos ho, hconn o ho]
    simp only []
    have hsh := disposeHead_shrinks s o reason
    obtain ⟨s4, hs4⟩ := disposeLoop_returns reason n o ih ((disposeHead s o reason).objs o)
      (disposeHead s o reason) (o :: B) (hsh.owned_of hown) (hsh.keys_of hk) (hsh.connected_of hconn)
      (disposeHead_noIn s o reason B hown hB) hnd
      (by intro b hb; rw [hsh.len]; exact hval b hb)
      (by rw [hsh.len, List.length_cons]; omega)
    rw [hs4]
    exact ⟨_, rfl⟩

theorem NoIn.empty (s : State) : NoIn s [] := by
  intro p e _ h
  cases h

theorem WellFormed.returns (hwf : WellFormed s) (o : Nat) (ho : o < s.heap.length)
    (reason : List String) : ∃ s', dispose (s.heap.length + 1) s o reason = some s' := by
  apply Playwright.dispose_returns reason (s.heap.length + 1) s o [] hwf.owned hwf.keys
    hwf.connected (NoIn.empty s)
  · simp
  · intro b hb
    simp only [List.mem_singleton] at hb
    rw [hb]; exact ho
  · simp

/-- In a well-formed tree a returned run of `dispose` of `o` ran on exactly `o`
and its transitive descendants. -/
theorem WellFormed.dispose_eff (hwf : WellFormed s) (o : Nat) (ho : o < s.heap.length)
    (reason : List String) (fuel : Nat) (s' : State)
    (h : dispose fuel s o reason = some s') :
    ∃ D, Eff s s' D reason ∧ ∀ x, x ∈ D ↔ Desc s o x := by
  obtain ⟨D, hE, hT, hC⟩ := dispose_spec reason fuel s o s' h
  obtain ⟨_, _, hcl⟩ := hC hwf.owned hwf.keys [] (NoIn.empty s)
  refine ⟨o :: D, hE, ?_⟩
  intro x
  constructor
  · intro hx
    rcases List.mem_cons.1 hx with hx | hx
    · rw [hx]; exact Relation.ReflTransGen.refl
    · exact (hT x hx).to_reflTransGen
  · intro hx
    induction hx with
    | refl => exact List.mem_cons_self _ _
    | tail _ hxy ihx =>
      obtain ⟨e, he, hey⟩ := hxy
      rcases hcl _ ihx e he with h1 | h1
      · rw [← hey]; exact h1
      · have h2 := hwf.owned.entry he
        have : e.2 = o := hwf.guids e.2 h2.1 o ho (by rw [h2.2.2, h1.2])
        rw [← hey, this]
        exact List.mem_cons_self _ _

/-! ## Disposal of a subtree -/

/-- C1: in a well-formed proxy tree (every object in a child set has that owner
as its parent and is stored under its guid, guids are unique, all objects
share the one connection, whose registry stores objects under their guid)
`o.dispose(reason...)` returns, and afterwards neither `o` nor any transitive
descendant of `o` is an entry of the registry. -/
theorem dispose_unregisters_subtree (s : State) (o : Nat) (reason : List String)
    (hwf : WellFormed s) (ho : o < s.heap.length) :
    (∃ s', dispose (s.heap.length + 1) s o reason = some s') ∧
    ∀ fuel s', dispose fuel s o reason = some s' →
      ∀ x, Desc s o x →
        (∀ e ∈ s'.connection.objects, e.2 ≠ x) ∧
        GoMap.load s'.connection.objects (s.obj x).guid = none := by
  refine ⟨hwf.returns o ho reason, ?_⟩
  intro fuel s' h x hx
  obtain ⟨D, hE, hD⟩ := hwf.dispose_eff o ho reason fuel s' h
  have hxD : x ∈ D := (hD x).2 hx
  have hgone : ∀ e ∈ s'.connection.objects, e.1 ≠ (s.obj x).guid := by
    intro e he hk
    rw [hE.reg, List.mem_filter] at he
    have : (s.obj x).guid ∈ guidsOf s D := List.mem_map.2 ⟨x, hxD, rfl⟩
    rw [hk] at he
    simp [this] at he
  constructor
  · intro e he hex
    have he1 : e ∈ s.connection.objects := by
      rw [hE.reg] at he
      exact (List.mem_filter.1 he).1
    have h1 := hwf.registry e he1
    rw [hex] at h1
    exact hgone e he h1.2.symm
  · rw [GoMap.load_eq_none_iff]
    intro hk
    obtain ⟨e, he, hek⟩ := List.mem_map.1 hk
    exact hgone e he hek

/-- Witness of C1: `browser@1` of the sample tree is disposed. -/
theorem dispose_unregisters_subtree_witness :
    (∃ s', dispose (sampleTree.heap.length + 1) sampleTree 1 ["gc"] = some s') ∧
    ∀ fuel s', dispose fuel sampleTree 1 ["gc"] = some s' →
      ∀ x, Desc sampleTree 1 x →
        (∀ e ∈ s'.connection.objects, e.2 ≠ x) ∧
        GoMap.load s'.connection.objects (sampleTree.obj x).guid = none :=
  dispose_unregisters_subtree sampleTree 1 ["gc"] (by decide) (by decide)

/-- C7: in a well-formed proxy tree, for an object `o` with parent `p`,
`o.dispose(reason...)` returns, and afterwards the guid of `o` is not a key of
the child set of `p`, and the child set of `o` and of every transitive
descendant of `o` is empty. -/
theorem dispose_unlinks_and_empties (s : State) (o p : Nat) (reason : List String)
    (hwf : WellFormed s) (ho : o < s.heap.length) (hp : (s.obj o).parent = some p) :
    (∃ s', dispose (s.heap.length + 1) s o reason = some s') ∧
    ∀ fuel s', dispose fuel s o reason = some s' →
      (s.obj o).guid ∉ GoMap.keys (s'.objs p) ∧ ∀ x, Desc s o x → s'.objs x = [] := by
  refine ⟨hwf.returns o ho reason, ?_⟩
  intro fuel s' h
  obtain ⟨D, hE, hD⟩ := hwf.dispose_eff o ho reason fuel s' h
  have hoD : o ∈ D := (hD o).2 Relation.ReflTransGen.refl
  constructor
  · intro hk
    obtain ⟨e, he, hek⟩ := List.mem_map.1 hk
    obtain ⟨_, _, hit⟩ := hE.mem_objs he
    rw [hitBy_eq_false_iff] at hit
    exact hit o hoD hp hek.symm
  · intro x hx
    exact hE.objs_of_mem ((hD x).2 hx)

/-- Witness of C7: `page@1` of the sample tree, whose parent is `browser@1`, is
disposed. -/
theorem dispose_unlinks_and_empties_witness :
    (∃ s', dispose (sampleTree.heap.length + 1) sampleTree 2 [] = some s') ∧
    ∀ fuel s', dispose fuel sampleTree 2 [] = some s' →
      (sampleTree.obj 2).guid ∉ GoMap.keys (s'.objs 1) ∧
      ∀ x, Desc sampleTree 2 x → s'.objs x = [] :=
  dispose_unlinks_and_empties sampleTree 2 1 [] (by decide) (by decide) (by decide)

/-- C8: in a well-formed proxy tree, after `o.dispose(r, ...)` with a reason `r`
the flag `wasCollected` of `o` and of every transitive descendant of `o` is
`r == "gc"`; after `o.dispose()` without a reason the flag of each of them is
what it was.  Both runs return. -/
theorem dispose_records_reason (s : State) (o : Nat) (r : String) (rs : List String)
    (hwf : WellFormed s) (ho : o < s.heap.length) :
    ((∃ s', dispose (s.heap.length + 1) s o (r :: rs) = some s') ∧
      ∀ fuel s', dispose fuel s o (r :: rs) = some s' →
        ∀ x, Desc s o x → (s'.obj x).wasCollected = (r == "gc")) ∧
    ((∃ s', dispose (s.heap.length + 1) s o [] = some s') ∧
      ∀ fuel s', dispose fuel s o [] = some s' →
        ∀ x, Desc s o x → (s'.obj x).wasCollected = (s.obj x).wasCollected) := by
  have key : ∀ reason fuel s', dispose fuel s o reason = some s' →
      ∀ x, Desc s o x →
        (s'.obj x).wasCollected = collected reason (s.obj x).wasCollected := by
    intro reason fuel s' h x hx
    obtain ⟨D, hE, hD⟩ := hwf.dispose_eff o ho reason fuel s' h
    have hxD : x ∈ D := (hD x).2 hx
    rw [hE.obj x (hE.valid x hxD)]
    simp [disposedObj, hxD]
  exact ⟨⟨hwf.returns o ho (r :: rs), fun fuel s' h x hx => key (r :: rs) fuel s' h x hx⟩,
    ⟨hwf.returns o ho [], fun fuel s' h x hx => key [] fuel s' h x hx⟩⟩

/-- Witness of C8: `browser@1` of the sample tree is disposed with the reason
`gc`, and without a reason. -/
theorem dispose_records_reason_witness :
    ((∃ s', dispose (sampleTree.heap.length + 1) sampleTree 1 ("gc" :: []) = some s') ∧
      ∀ fuel s', dispose fuel sampleTree 1 ("gc" :: []) = some s' →
        ∀ x, Desc sampleTree 1 x → (s'.obj x).wasCollected = ("gc" == "gc")) ∧
    ((∃ s', dispose (sampleTree.heap.length + 1) sampleTree 1 [] = some s') ∧
      ∀ fuel s', dispose fuel sampleTree 1 [] = some s' →
        ∀ x, Desc sampleTree 1 x →
          (s'.obj x).wasCollected = (sampleTree.obj x).wasCollected) :=
  dispose_records_reason sampleTree 1 "gc" [] (by decide) (by decide)

/-! ## Lookups after map updates -/

theorem GoMap.load_filter_key {α : Type} (m : GoMap α) (f : String → Bool) (k : String) :
    GoMap.load (m.filter (fun e => f e.1)) k = if f k then GoMap.load m k else none := by
  induction m with
  | nil => simp [GoMap.load]
  | cons e m ih =>
    simp only [GoMap.load] at ih ⊢
    by_cases hfe : f e.1 = true
    · by_cases hek : e.1 = k
      · have hfk : f k = true := by rw [← hek]; exact hfe
        simp [List.filter_cons, hfe, hfk, List.find?_cons, hek]
      · simp only [List.filter_cons, hfe, if_true, List.find?_cons]
        have hb : (e.1 == k) = false := by simpa using hek
        rw [hb]
        exact ih
    · by_cases hek : e.1 = k
      · have hfk : ¬ (f k = true) := by rw [← hek]; exact hfe
        simp only [List.filter_cons, hfe, if_false, Bool.false_eq_true]
        rw [ih]
        simp [hfk]
      · simp only [List.filter_cons, hfe, if_false, Bool.false_eq_true, List.find?_cons]
        have hb : (e.1 == k) = false := by simpa using hek
        rw [hb]
        exact ih

theorem GoMap.load_delete {α : Type} (m : GoMap α) (k k' : String) :
    GoMap.load (GoMap.delete m k) k' = if k' = k then none else GoMap.load m k' := by
  unfold GoMap.delete
  rw [GoMap.load_filter_key m (fun x => x != k) k']
  by_cases h : k' = k <;> simp [h]

theorem GoMap.load_store {α : Type} (m : GoMap α) (k : String) (v : α) (k' : String) :
    GoMap.load (GoMap.store m k v) k' = if k' = k then some v else GoMap.load m k' := by
  by_cases h : k' = k
  · rw [h, GoMap.load_store_self, if_pos rfl]
  · have hb : (k == k') = false := by
      simpa using fun hk : k = k' => h hk.symm
    have := GoMap.load_delete m k k'
    rw [if_neg h] at this ⊢
    rw [← this]
    unfold GoMap.store GoMap.load
    simp only [List.find?_cons, hb]

theorem GoMap.mem_store {α : Type} (m : GoMap α) (k : String) (v : α) (e : String × α) :
    e ∈ GoMap.store m k v ↔ e = (k, v) ∨ (e ∈ m ∧ e.1 ≠ k) := by
  unfold GoMap.store
  rw [List.mem_cons, GoMap.mem_delete]

theorem GoMap.keys_nodup_delete {α : Type} (m : GoMap α) (k : String)
    (h : (GoMap.keys m).Nodup) : (GoMap.keys (GoMap.delete m k)).Nodup :=
  List.Nodup.sublist ((List.filter_sublist m).map _) h

theorem GoMap.keys_nodup_store {α : Type} (m : GoMap α) (k : String) (v : α)
    (h : (GoMap.keys m).Nodup) : (GoMap.keys (GoMap.store m k v)).Nodup := by
  unfold GoMap.store
  show (k :: GoMap.keys (GoMap.delete m k)).Nodup
  rw [List.nodup_cons]
  refine ⟨?_, GoMap.keys_nodup_delete m k h⟩
  intro hk
  obtain ⟨e, he, hek⟩ := List.mem_map.1 hk
  exact ((GoMap.mem_delete m k e).1 he).2 hek

/-! ## The state after a constructor -/

theorem State.obj_alloc (s : State) (a : Nat) : (s.alloc).1.obj a = s.obj a := by
  unfold State.alloc State.obj
  by_cases h : a < s.heap.length
  · simp [List.getElem?_append_left h]
  · have h1 : s.heap.length ≤ a := Nat.le_of_not_lt h
    rw [List.getElem?_eq_none h1]
    rcases Nat.eq_or_lt_of_le h1 with h2 | h2
    · subst h2
      simp
    · rw [List.getElem?_eq_none (by simp; omega)]

theorem State.length_alloc (s : State) : (s.alloc).1.heap.length = s.heap.length + 1 := by
  simp [State.alloc]

theorem registerIfConnected_obj (s : State) (c : Nat) (g : String) (a : Nat) :
    (registerIfConnected s c g).obj a = s.obj a := by
  unfold registerIfConnected
  split <;> rfl

theorem registerIfConnected_length (s : State) (c : Nat) (g : String) :
    (registerIfConnected s c g).heap.length = s.heap.length := by
  unfold registerIfConnected
  split <;> rfl

theorem createChannelOwner_length (s : State) (c : Nat) (parent : Option Nat)
    (objectType g : String) (initializer : GoMap GoValue) :
    (createChannelOwner s c parent objectType g initializer).heap.length = s.heap.length := by
  unfold createChannelOwner
  simp only [State.length_modify, registerIfConnected_length]
  cases parent with
  | none => simp [createFields, State.length_modify]
  | some p => simp [createFields, createLink, State.length_modify]

theorem createChannelOwner_obj (s : State) (c p : Nat) (objectType g : String)
    (initializer : GoMap GoValue) (hc : c < s.heap.length) (hp : p < s.heap.length)
    (hne : c ≠ p) (a : Nat) :
    (createChannelOwner s c (some p) objectType g initializer).obj a =
      if a = c then
        { s.obj c with
          objectType := objectType, guid := g, wasCollected := false, parent := some p,
          objects := [], initializer := initializer, connection := (s.obj p).connection,
          eventToSubscriptionMapping := [] }
      else if a = p then { s.obj p with objects := GoMap.store (s.objs p) g c }
      else s.obj a := by
  have hpc : p ≠ c := fun h => hne h.symm
  unfold createChannelOwner
  simp only [State.obj_modify, registerIfConnected_obj, registerIfConnected_length, createLink,
    createFields, State.length_modify]
  by_cases hac : a = c
  · subst hac
    simp [hc, hne, hpc, State.objs]
  · have hca : ¬ (c = a) := fun h => hac h.symm
    by_cases hap : a = p
    · subst hap
      simp [hac, hca, hp, State.objs]
    · have hpa : ¬ (p = a) := fun h => hap h.symm
      simp [hac, hca, hap, hpa]

theorem createChannelOwner_reg (s : State) (c p : Nat) (objectType g : String)
    (initializer : GoMap GoValue) (hc : c < s.heap.length) (hp : p < s.heap.length)
    (hne : c ≠ p) (hconn : (s.obj p).connection = some ()) :
    (createChannelOwner s c (some p) objectType g initializer).connection.objects =
      GoMap.store s.connection.objects g c := by
  have hpc : p ≠ c := fun h => hne h.symm
  unfold createChannelOwner
  simp only [State.connection_modify]
  have h2 : ((createLink (createFields s c (some p) objectType g initializer) c p g).obj
      c).connection = some () := by
    simp [createLink, createFields, State.obj_modify, State.length_modify, hc, hp, hne, hpc,
      hconn]
  unfold registerIfConnected
  rw [h2]
  rfl

theorem createChannelOwner_root (s : State) (c : Nat) (objectType g : String)
    (initializer : GoMap GoValue) (hc : c < s.heap.length)
    (hconn : (s.obj c).connection = some ()) :
    ((createChannelOwner s c none objectType g initializer).obj c).parent = none ∧
    ((createChannelOwner s c none objectType g initializer).obj c).guid = g ∧
    (createChannelOwner s c none objectType g initializer).connection.objects =
      GoMap.store s.connection.objects g c := by
  unfold createChannelOwner
  simp only [State.obj_modify, registerIfConnected_obj, registerIfConnected_length,
    createFields, State.length_modify, State.connection_modify]
  refine ⟨by simp [hc], by simp [hc], ?_⟩
  have h2 : ((s.modify c fun o =>
      { o with objectType := objectType, guid := g, wasCollected := false, parent := none,
               objects := [], initializer := initializer }).obj c).connection = some () := by
    simp [State.obj_modify, hc, hconn]
  unfold registerIfConnected
  rw [h2]
  rfl

/-- C6: after `createChannelOwner(self, p, type, g, initializer)` on a receiver
other than `p`, for a parent `p` with a connection, the receiver has parent
`p` and the connection of `p`, is the entry under `g` of the child set of `p`
and of the registry, and has an empty child set, an empty subscription map
and `wasCollected = false`; the root made by `newRootChannelOwner` has no
parent and is the registry entry under the empty guid. -/
theorem createChannelOwner_registers (s : State) (c p : Nat) (objectType g : String)
    (initializer : GoMap GoValue) :
    (c < s.heap.length → p < s.heap.length → c ≠ p → (s.obj p).connection = some () →
      ((createChannelOwner s c (some p) objectType g initializer).obj c).parent = some p ∧
      ((createChannelOwner s c (some p) objectType g initializer).obj c).connection =
        (s.obj p).connection ∧
      GoMap.load ((createChannelOwner s c (some p) objectType g initializer).objs p) g = some c ∧
      GoMap.load (createChannelOwner s c (some p) objectType g initializer).connection.objects g
        = some c ∧
      ((createChannelOwner s c (some p) objectType g initializer).obj c).objects = [] ∧
      ((createChannelOwner s c (some p) objectType g initializer).obj c).eventToSubscriptionMapping
        = [] ∧
      ((createChannelOwner s c (some p) objectType g initializer).obj c).wasCollected = false ∧
      ((createChannelOwner s c (some p) objectType g initializer).obj c).guid = g ∧
      ((createChannelOwner s c (some p) objectType g initializer).obj c).objectType
        = objectType) ∧
    (((newRootChannelOwner s (some ())).1.obj (newRootChannelOwner s (some ())).2).parent = none ∧
      ((newRootChannelOwner s (some ())).1.obj (newRootChannelOwner s (some ())).2).guid = "" ∧
      GoMap.load (newRootChannelOwner s (some ())).1.connection.objects ""
        = some (newRootChannelOwner s (some ())).2) := by
  constructor
  · intro hc hp hne hconn
    have hpc : p ≠ c := fun h => hne h.symm
    have hobj := createChannelOwner_obj s c p objectType g initializer hc hp hne
    have hreg := createChannelOwner_reg s c p objectType g initializer hc hp hne hconn
    refine ⟨?_, ?_, ?_, ?_, ?_, ?_, ?_, ?_, ?_⟩
    · rw [hobj c, if_pos rfl]
    · rw [hobj c, if_pos rfl]
    · unfold State.objs
      rw [hobj p, if_neg hpc, if_pos rfl]
      exact GoMap.load_store_self _ _ _
    · rw [hreg]
      exact GoMap.load_store_self _ _ _
    · rw [hobj c, if_pos rfl]
    · rw [hobj c, if_pos rfl]
    · rw [hobj c, if_pos rfl]
    · rw [hobj c, if_pos rfl]
    · rw [hobj c, if_pos rfl]
  · have hlen : s.heap.length < ((s.alloc).1.modify s.heap.length
        (fun o => { o with connection := some () })).heap.length := by
      rw [State.length_modify, State.length_alloc]
      exact Nat.lt_succ_self _
    have hconn : (((s.alloc).1.modify s.heap.length
        (fun o => { o with connection := some () })).obj s.heap.length).connection = some () := by
      rw [State.obj_modify_self _ _ _ (by rw [State.length_alloc]; exact Nat.lt_succ_self _)]
    have h := createChannelOwner_root _ s.heap.length "Root" "" [] hlen hconn
    refine ⟨h.1, h.2.1, ?_⟩
    have h3 := congrArg (fun m => GoMap.load m "") h.2.2
    exact h3.trans (GoMap.load_store_self _ _ _)

/-- Witness of C6: a page created under `browser@1` of the sample tree, on a
freshly allocated receiver. -/
theorem createChannelOwner_registers_witness :
    ((createChannelOwner (sampleTree.alloc).1 3 (some 1) "Page" "page@2" []).obj 3).parent
      = some 1 ∧
    GoMap.load ((createChannelOwner (sampleTree.alloc).1 3 (some 1) "Page" "page@2" []).objs 1)
      "page@2" = some 3 ∧
    GoMap.load (createChannelOwner (sampleTree.alloc).1 3 (some 1) "Page" "page@2" []
      ).connection.objects "page@2" = some 3 :=
  have h := (createChannelOwner_registers (sampleTree.alloc).1 3 1 "Page" "page@2" []).1
    (by decide) (by decide) (by decide) (by decide)
  ⟨h.1, h.2.2.1, h.2.2.2.1⟩


/-! ## The guarded operations keep the invariant -/

theorem newBindingCall_state (s : State) (p : Nat) (objectType g : String)
    (initializer : GoMap GoValue) (hp : p < s.heap.length)
    (hconn : (s.obj p).connection = some ()) :
    (newBindingCall s p objectType g initializer).1.heap.length = s.heap.length + 1 ∧
    (newBindingCall s p objectType g initializer).1.connection.objects =
      GoMap.store s.connection.objects g s.heap.length ∧
    (∀ a, (newBindingCall s p objectType g initializer).1.obj a =
      if a = s.heap.length then
        { channelOwner.zero with
          objectType := objectType, guid := g, parent := some p, initializer := initializer,
          connection := some () }
      else if a = p then { s.obj p with objects := GoMap.store (s.objs p) g s.heap.length }
      else s.obj a) := by
  have hn : s.heap.length < (s.alloc).1.heap.length := by
    rw [State.length_alloc]; exact Nat.lt_succ_self _
  have hp1 : p < (s.alloc).1.heap.length := Nat.lt_trans hp hn
  have hne : s.heap.length ≠ p := fun h => Nat.lt_irrefl _ (h ▸ hp)
  have hconn1 : ((s.alloc).1.obj p).connection = some () := by rw [State.obj_alloc]; exact hconn
  refine ⟨?_, ?_, ?_⟩
  · show (createChannelOwner _ _ _ _ _ _).heap.length = _
    rw [createChannelOwner_length, State.length_alloc]
  · exact createChannelOwner_reg (s.alloc).1 s.heap.length p objectType g initializer hn hp1 hne
      hconn1
  · intro a
    have h := createChannelOwner_obj (s.alloc).1 s.heap.length p objectType g initializer hn hp1
      hne a
    refine h.trans ?_
    have hz : s.obj s.heap.length = channelOwner.zero := State.obj_of_le s _ (Nat.le_refl _)
    simp only [State.obj_alloc, State.objs, hconn, hz]
    rfl

theorem newBindingCall_objs (s : State) (p : Nat) (objectType g : String)
    (initializer : GoMap GoValue) (hp : p < s.heap.length)
    (hconn : (s.obj p).connection = some ()) (a : Nat) :
    (newBindingCall s p objectType g initializer).1.objs a =
      if a = p then GoMap.store (s.objs p) g s.heap.length else s.objs a := by
  unfold State.objs
  rw [(newBindingCall_state s p objectType g initializer hp hconn).2.2 a]
  by_cases han : a = s.heap.length
  · have hap : a ≠ p := fun h => Nat.lt_irrefl _ (by rw [← h, han] at hp; exact hp)
    rw [if_pos han, if_neg hap, han, State.obj_of_le s _ (Nat.le_refl _)]
  · rw [if_neg han]
    split <;> rfl

theorem newBindingCall_fields (s : State) (p : Nat) (objectType g : String)
    (initializer : GoMap GoValue) (hp : p < s.heap.length)
    (hconn : (s.obj p).connection = some ()) (a : Nat) (ha : a ≠ s.heap.length) :
    ((newBindingCall s p objectType g initializer).1.obj a).guid = (s.obj a).guid ∧
    ((newBindingCall s p objectType g initializer).1.obj a).parent = (s.obj a).parent ∧
    ((newBindingCall s p objectType g initializer).1.obj a).connection
      = (s.obj a).connection := by
  rw [(newBindingCall_state s p objectType g initializer hp hconn).2.2 a, if_neg ha]
  split
  · rename_i h; rw [h]; exact ⟨rfl, rfl, rfl⟩
  · exact ⟨rfl, rfl, rfl⟩

theorem newBindingCall_new (s : State) (p : Nat) (objectType g : String)
    (initializer : GoMap GoValue) (hp : p < s.heap.length)
    (hconn : (s.obj p).connection = some ()) :
    ((newBindingCall s p objectType g initializer).1.obj s.heap.length).guid = g ∧
    ((newBindingCall s p objectType g initializer).1.obj s.heap.length).parent = some p ∧
    ((newBindingCall s p objectType g initializer).1.obj s.heap.length).connection
      = some () := by
  rw [(newBindingCall_state s p objectType g initializer hp hconn).2.2 _, if_pos rfl]
  exact ⟨rfl, rfl, rfl⟩

theorem StrongInvariant.create (h : StrongInvariant s) (p : Nat) (objectType g : String)
    (initializer : GoMap GoValue) (hp : p < s.heap.length)
    (hfresh : GoMap.load s.connection.objects g = none) :
    StrongInvariant (newBindingCall s p objectType g initializer).1 := by
  have hconn := h.connected p hp
  obtain ⟨hlen, hreg, _⟩ := newBindingCall_state s p objectType g initializer hp hconn
  have hobjs := newBindingCall_objs s p objectType g initializer hp hconn
  have hfld := newBindingCall_fields s p objectType g initializer hp hconn
  have hnew := newBindingCall_new s p objectType g initializer hp hconn
  have hkeyne : ∀ q e, e ∈ s.objs q → e.1 ≠ g := by
    intro q e he hk
    have hq : q < s.heap.length := by
      by_contra hn
      rw [State.objs_of_le s q (Nat.le_of_not_lt hn)] at he
      cases he
    have := h.entriesLive q hq e he
    rw [hk, hfresh] at this
    cases this
  -- every entry of the new state: the new one, or an old one
  have hentry : ∀ q e, e ∈ (newBindingCall s p objectType g initializer).1.objs q →
      (q = p ∧ e = (g, s.heap.length)) ∨ e ∈ s.objs q := by
    intro q e he
    rw [hobjs] at he
    split at he
    · rename_i hqp
      rcases (GoMap.mem_store _ _ _ _).1 he with h1 | h1
      · exact Or.inl ⟨hqp, h1⟩
      · exact Or.inr (hqp ▸ h1.1)
    · exact Or.inr he
  refine ⟨?_, ?_, ?_, ?_, ?_, ?_⟩
  · intro a ha
    by_cases han : a = s.heap.length
    · rw [han]; exact hnew.2.2
    · rw [(hfld a han).2.2]
      exact h.connected a (by rw [hlen] at ha; omega)
  · intro e he
    rw [hreg] at he
    rcases (GoMap.mem_store _ _ _ _).1 he with h1 | h1
    · rw [h1, hlen]
      exact ⟨Nat.lt_succ_self _, hnew.1⟩
    · have h2 := h.registry e h1.1
      rw [hlen, (hfld e.2 (Nat.ne_of_lt h2.1)).1]
      exact ⟨Nat.lt_succ_of_lt h2.1, h2.2⟩
  · intro q _ e he
    rcases hentry q e he with h1 | h1
    · rw [h1.2, h1.1, hlen]
      exact ⟨Nat.lt_succ_self _, hnew.2.1, hnew.1⟩
    · have h2 := h.owned.entry h1
      rw [hlen, (hfld e.2 (Nat.ne_of_lt h2.1)).1, (hfld e.2 (Nat.ne_of_lt h2.1)).2.1]
      exact ⟨Nat.lt_succ_of_lt h2.1, h2.2⟩
  · intro q _
    rw [hobjs]
    split
    · exact GoMap.keys_nodup_store _ _ _ (h.keys.nodup_at p)
    · exact h.keys.nodup_at q
  · intro q _ e he
    rw [hreg, GoMap.load_store]
    rcases hentry q e he with h1 | h1
    · rw [h1.2, if_pos rfl]
    · have hq : q < s.heap.length := by
        by_contra hn
        rw [State.objs_of_le s q (Nat.le_of_not_lt hn)] at h1
        cases h1
      rw [if_neg (hkeyne q e h1)]
      exact h.entriesLive q hq e h1
  · intro a ha hl q hq
    by_cases han : a = s.heap.length
    · rw [han] at hq ⊢
      rw [hnew.2.1] at hq
      have : q = p := (Option.some.inj hq).symm
      rw [this, hnew.1, hobjs, if_pos rfl]
      exact (GoMap.mem_store _ _ _ _).2 (Or.inl rfl)
    · have ha' : a < s.heap.length := by rw [hlen] at ha; omega
      rw [(hfld a han).1] at hl ⊢
      rw [(hfld a han).2.1] at hq
      rw [hreg, GoMap.load_store] at hl
      by_cases hg : (s.obj a).guid = g
      · rw [if_pos hg] at hl
        exact absurd (Option.some.inj hl).symm han
      · rw [if_neg hg] at hl
        have h1 := h.linked a ha' hl q hq
        rw [hobjs]
        split
        · rename_i hqp
          rw [hqp] at h1
          exact (GoMap.mem_store _ _ _ _).2 (Or.inr ⟨h1, hg⟩)
        · exact h1

theorem adopt_eq (s s' : State) (c child : Nat) (h : adopt s c child = some s') :
    c < s.heap.length ∧ child < s.heap.length ∧
    ∃ p, (s.obj child).parent = some p ∧
      s' = (adoptStore s c child p).modify child (fun o => { o with parent := some c }) := by
  unfold adopt at h
  by_cases hv : c < s.heap.length ∧ child < s.heap.length
  · rw [if_pos hv] at h
    cases hp : (s.obj child).parent with
    | none => rw [hp] at h; cases h
    | some p =>
      rw [hp] at h
      simp only [Option.some.injEq] at h
      exact ⟨hv.1, hv.2, p, rfl, h.symm⟩
  · rw [if_neg hv] at h
    cases h

theorem adopt_objs (s : State) (c child p : Nat) (hc : c < s.heap.length) (q : Nat) :
    ((adoptStore s c child p).modify child (fun o => { o with parent := some c })).objs q =
      if q = c then
        GoMap.store (if c = p then GoMap.delete (s.objs c) (s.obj child).guid else s.objs c)
          (s.obj child).guid child
      else if q = p then GoMap.delete (s.objs q) (s.obj child).guid
      else s.objs q := by
  have hdel : ∀ a, (adoptDelete s child p).objs a =
      if a = p then GoMap.delete (s.objs a) (s.obj child).guid else s.objs a := by
    intro a
    unfold adoptDelete
    rw [State.objs_modify]
    by_cases hap : a = p
    · subst hap
      by_cases hlt : a < s.heap.length
      · simp [hlt, State.objs]
      · simp [hlt, State.objs_of_le s a (Nat.le_of_not_lt hlt), GoMap.delete]
    · have hpa : ¬ (p = a) := fun h => hap h.symm
      simp [hap, hpa]
  have h3 : ((adoptStore s c child p).modify child
      (fun o => { o with parent := some c })).objs q = (adoptStore s c child p).objs q := by
    rw [State.objs_modify]
    split <;> rfl
  rw [h3]
  unfold adoptStore
  rw [State.objs_modify]
  have hlen1 : (adoptDelete s child p).heap.length = s.heap.length := State.length_modify _ _ _
  by_cases hqc : q = c
  · subst hqc
    rw [if_pos ⟨rfl, by rw [hlen1]; exact hc⟩, if_pos rfl]
    show GoMap.store ((adoptDelete s child p).objs q) _ _ = _
    rw [hdel q]
  · have hcq : ¬ (c = q) := fun h => hqc h.symm
    rw [if_neg (fun h => hcq h.1), if_neg hqc, hdel q]

theorem adopt_fields (s : State) (c child p : Nat) (a : Nat) :
    (((adoptStore s c child p).modify child (fun o => { o with parent := some c })).obj a).guid
      = (s.obj a).guid ∧
    (((adoptStore s c child p).modify child
      (fun o => { o with parent := some c })).obj a).connection = (s.obj a).connection ∧
    (a ≠ child → (((adoptStore s c child p).modify child
      (fun o => { o with parent := some c })).obj a).parent = (s.obj a).parent) := by
  have h1 : ((adoptDelete s child p).obj a).guid = (s.obj a).guid ∧
      ((adoptDelete s child p).obj a).connection = (s.obj a).connection ∧
      ((adoptDelete s child p).obj a).parent = (s.obj a).parent := by
    unfold adoptDelete
    rw [State.obj_modify]
    split
    · exact ⟨rfl, rfl, rfl⟩
    · exact ⟨rfl, rfl, rfl⟩
  have h2 : ((adoptStore s c child p).obj a).guid = (s.obj a).guid ∧
      ((adoptStore s c child p).obj a).connection = (s.obj a).connection ∧
      ((adoptStore s c child p).obj a).parent = (s.obj a).parent := by
    unfold adoptStore
    rw [State.obj_modify]
    split
    · exact h1
    · exact h1
  rw [State.obj_modify]
  refine ⟨?_, ?_, ?_⟩
  · split
    · exact h2.1
    · exact h2.1
  · split
    · exact h2.2.1
    · exact h2.2.1
  · intro ha
    rw [if_neg (fun h => ha h.1.symm)]
    exact h2.2.2

theorem Live.registered (h : StrongInvariant s) (hl : Live s a) :
    GoMap.load s.connection.objects (s.obj a).guid = some a := by
  obtain ⟨_, k, hk⟩ := hl
  have := h.registry (k, a) (GoMap.mem_of_load _ _ _ hk)
  rw [this.2]
  exact hk

theorem StrongInvariant.adopt (h : StrongInvariant s) (c child : Nat) (s' : State)
    (hl : Live s child) (ha : adopt s c child = some s') : StrongInvariant s' := by
  obtain ⟨hc, hch, p, hp, hs'⟩ := adopt_eq s s' c child ha
  subst hs'
  have hlen : ((adoptStore s c child p).modify child
      (fun o => { o with parent := some c })).heap.length = s.heap.length := by
    rw [State.length_modify]
    unfold adoptStore
    rw [State.length_modify]
    exact State.length_modify _ _ _
  have hfld := adopt_fields s c child p
  have hparent : (((adoptStore s c child p).modify child
      (fun o => { o with parent := some c })).obj child).parent = some c := by
    have hlen2 : (adoptStore s c child p).heap.length = s.heap.length := by
      unfold adoptStore
      rw [State.length_modify]
      exact State.length_modify _ _ _
    rw [State.obj_modify_self _ _ _ (by rw [hlen2]; exact hch)]
  have hreg : ((adoptStore s c child p).modify child
      (fun o => { o with parent := some c })).connection = s.connection := rfl
  have hlive := hl.registered h
  -- the entries of the new state
  have hentry : ∀ q e, e ∈ ((adoptStore s c child p).modify child
      (fun o => { o with parent := some c })).objs q →
      (q = c ∧ e = ((s.obj child).guid, child)) ∨
      (e ∈ s.objs q ∧ ¬ (e.1 = (s.obj child).guid ∧ (q = p ∨ q = c))) := by
    intro q e he
    rw [adopt_objs s c child p hc q] at he
    by_cases hqc : q = c
    · rw [if_pos hqc] at he
      rcases (GoMap.mem_store _ _ _ _).1 he with h1 | h1
      · exact Or.inl ⟨hqc, h1⟩
      · right
        refine ⟨?_, fun hn => h1.2 hn.1⟩
        rw [hqc]
        split at h1
        · exact ((GoMap.mem_delete _ _ _).1 h1.1).1
        · exact h1.1
    · rw [if_neg hqc] at he
      split at he
      · rename_i hqp
        rw [GoMap.mem_delete] at he
        exact Or.inr ⟨he.1, fun hn => he.2 hn.1⟩
      · rename_i hqp
        exact Or.inr ⟨he, fun hn => hn.2.elim hqp hqc⟩
  have hkeep : ∀ q e, e ∈ s.objs q → e.1 ≠ (s.obj child).guid →
      e ∈ ((adoptStore s c child p).modify child
        (fun o => { o with parent := some c })).objs q := by
    intro q e he hk
    rw [adopt_objs s c child p hc q]
    by_cases hqc : q = c
    · rw [if_pos hqc]
      refine (GoMap.mem_store _ _ _ _).2 (Or.inr ⟨?_, hk⟩)
      rw [hqc] at he
      split
      · exact (GoMap.mem_delete _ _ _).2 ⟨he, hk⟩
      · exact he
    · rw [if_neg hqc]
      split
      · exact (GoMap.mem_delete _ _ _).2 ⟨he, hk⟩
      · exact he
  -- an old entry that stays does not point to the child
  have hnotchild : ∀ q e, e ∈ s.objs q →
      ¬ (e.1 = (s.obj child).guid ∧ (q = p ∨ q = c)) → e.2 ≠ child := by
    intro q e he hn hec
    have h1 := h.owned.entry he
    rw [hec, hp] at h1
    exact hn ⟨h1.2.2.symm, Or.inl (Option.some.inj h1.2.1).symm⟩
  refine ⟨?_, ?_, ?_, ?_, ?_, ?_⟩
  · intro a ha
    rw [(hfld a).2.1]
    exact h.connected a (hlen ▸ ha)
  · intro e he
    rw [hreg] at he
    rw [hlen, (hfld e.2).1]
    exact h.registry e he
  · intro q _ e he
    rw [hlen]
    rcases hentry q e he with h1 | h1
    · rw [h1.2, h1.1]
      exact ⟨hch, hparent, (hfld child).1⟩
    · have h2 := h.owned.entry h1.1
      have hne := hnotchild q e h1.1 h1.2
      rw [(hfld e.2).1, (hfld e.2).2.2 hne]
      exact h2
  · intro q _
    rw [adopt_objs s c child p hc q]
    split
    · apply GoMap.keys_nodup_store
      split
      · exact GoMap.keys_nodup_delete _ _ (h.keys.nodup_at c)
      · exact h.keys.nodup_at c
    · split
      · exact GoMap.keys_nodup_delete _ _ (h.keys.nodup_at q)
      · exact h.keys.nodup_at q
  · intro q _ e he
    rw [hreg]
    rcases hentry q e he with h1 | h1
    · rw [h1.2]
      exact hlive
    · have hq : q < s.heap.length := by
        by_contra hn
        rw [State.objs_of_le s q (Nat.le_of_not_lt hn)] at h1
        cases h1.1
      exact h.entriesLive q hq e h1.1
  · intro a ha hla q hq
    rw [hreg, (hfld a).1] at hla
    rw [(hfld a).1]
    by_cases hac : a = child
    · rw [hac] at hq ⊢
      rw [hparent] at hq
      have : q = c := (Option.some.inj hq).symm
      rw [this, adopt_objs s c child p hc c, if_pos rfl]
      exact (GoMap.mem_store _ _ _ _).2 (Or.inl rfl)
    · rw [(hfld a).2.2 hac] at hq
      have h1 := h.linked a (hlen ▸ ha) hla q hq
      apply hkeep q _ h1
      intro hg
      simp only at hg
      rw [hg, hlive] at hla
      exact hac (Option.some.inj hla).symm

theorem StrongInvariant.dispose (h : StrongInvariant s) (o : Nat) (reason : List String)
    (fuel : Nat) (s' : State) (hl : Live s o) (hd : dispose fuel s o reason = some s') :
    StrongInvariant s' := by
  obtain ⟨D, hE, hT, hC⟩ := dispose_spec reason fuel s o s' hd
  obtain ⟨_, _, hcl⟩ := hC h.owned h.keys [] (NoIn.empty s)
  have hsh := hE.shrinks
  have hreg : ∀ k, GoMap.load s'.connection.objects k =
      if k ∈ guidsOf s (o :: D) then none else GoMap.load s.connection.objects k := by
    intro k
    rw [hE.reg, GoMap.load_filter_key s.connection.objects
      (fun x => !(guidsOf s (o :: D)).contains x) k]
    by_cases hk : k ∈ guidsOf s (o :: D) <;> simp [hk]
  -- every object the run disposed was registered under its guid
  have hlive : ∀ z ∈ o :: D, GoMap.load s.connection.objects (s.obj z).guid = some z := by
    intro z hz
    rcases List.mem_cons.1 hz with hz | hz
    · rw [hz]; exact hl.registered h
    · obtain ⟨q, e, he, hez⟩ := TransGen.target (hT z hz)
      have hq : q < s.heap.length := by
        by_contra hn
        rw [State.objs_of_le s q (Nat.le_of_not_lt hn)] at he
        cases he
      have h1 := h.entriesLive q hq e he
      have h2 := h.owned.entry he
      rw [← h2.2.2, hez] at h1
      exact h1
  refine ⟨hsh.connected_of h.connected, ?_, hsh.owned_of h.owned, hsh.keys_of h.keys, ?_, ?_⟩
  · intro e he
    rw [hE.reg] at he
    have h1 := h.registry e (List.mem_filter.1 he).1
    rw [hsh.len, (hsh.fields e.2).1]
    exact h1
  · intro p hp e he
    obtain ⟨he1, hpD, hit⟩ := hE.mem_objs he
    rw [hreg]
    have hold := h.entriesLive p (hsh.len ▸ hp) e he1
    split
    · rename_i hk
      exfalso
      obtain ⟨z, hz, hzg⟩ := List.mem_map.1 hk
      have h1 := hlive z hz
      rw [hzg, hold] at h1
      have hez : e.2 = z := Option.some.inj h1
      have h2 := h.owned.entry he1
      rw [hitBy_eq_false_iff] at hit
      rw [hez] at h2
      exact hit z hz h2.2.1 h2.2.2
    · exact hold
  · intro a ha hla q hq
    rw [(hsh.fields a).1] at hla ⊢
    rw [(hsh.fields a).2.1] at hq
    rw [hreg] at hla
    split at hla
    · cases hla
    · rename_i hk
      have h1 := h.linked a (hsh.len ▸ ha) hla q hq
      have haD : a ∉ o :: D := fun haD => hk (List.mem_map.2 ⟨a, haD, rfl⟩)
      apply hE.mem_objs_of h1
      · intro hqD
        rcases hcl q hqD _ h1 with h2 | h2
        · exact haD h2
        · exact hk (List.mem_map.2 ⟨o, List.mem_cons_self _ _, h2.2⟩)
      · rw [hitBy_eq_false_iff]
        intro z hz _ hzg
        exact hk (List.mem_map.2 ⟨z, hz, hzg⟩)

theorem StrongInvariant.root : StrongInvariant rootState := by
  have hlen : rootState.heap.length = 1 := by decide
  refine ⟨by decide, by decide, by decide, by decide, by decide, ?_⟩
  intro a ha _ p hp
  rw [hlen] at ha
  have : a = 0 := by omega
  subst this
  have : (rootState.obj 0).parent = none := by decide
  rw [this] at hp
  cases hp

theorem StrongInvariant.treeInvariant (h : StrongInvariant s) (hpar : Parented s) :
    TreeInvariant s := by
  refine ⟨?_, ?_, hpar.root⟩
  · intro a hl hne
    obtain ⟨p, hp⟩ := hpar.other a hl.1 hne
    have hreg := hl.registered h
    have hmem := h.linked a hl.1 hreg p hp
    refine ⟨p, hp, hreg, GoMap.load_of_mem _ _ _ (h.keys.nodup_at p) hmem, ?_⟩
    intro q e he hea
    have h1 := h.owned.entry he
    rw [hea, hp] at h1
    exact ⟨(Option.some.inj h1.2.1).symm, h1.2.2.symm⟩
  · intro p hl e he
    have h1 := h.owned.entry he
    exact ⟨h1.1, e.1, h.entriesLive p hl.1 e he⟩

theorem Reachable.strong (h : Reachable true s) : StrongInvariant s := by
  induction h with
  | root => exact StrongInvariant.root
  | create p objectType g initializer _ hp hfresh ih =>
    exact ih.create p objectType g initializer hp (hfresh rfl)
  | adopt c child _ hl ha ih => exact ih.adopt c child _ (hl rfl) ha
  | dispose o reason fuel _ hl hd ih => exact ih.dispose o reason fuel _ (hl rfl) hd

theorem Parented.root_state : Parented rootState := by
  have hlen : rootState.heap.length = 1 := by decide
  refine ⟨by decide, by decide, ?_⟩
  intro a ha hne
  rw [hlen] at ha
  exact absurd (show a = rootAddress by
    have : rootAddress = 0 := rfl
    omega) hne

theorem Parented.after_create (h : Parented s) (p : Nat) (objectType g : String)
    (initializer : GoMap GoValue) (hp : p < s.heap.length)
    (hconn : (s.obj p).connection = some ()) :
    Parented (newBindingCall s p objectType g initializer).1 := by
  have hst := newBindingCall_state s p objectType g initializer hp hconn
  have hroot : rootAddress ≠ s.heap.length := Nat.ne_of_lt h.allocated
  refine ⟨?_, ?_, ?_⟩
  · rw [hst.1]
    exact Nat.lt_succ_of_lt h.allocated
  · rw [(newBindingCall_fields s p objectType g initializer hp hconn rootAddress hroot).2.1]
    exact h.root
  · intro a ha hne
    by_cases han : a = s.heap.length
    · rw [han]
      exact ⟨p, (newBindingCall_new s p objectType g initializer hp hconn).2.1⟩
    · rw [(newBindingCall_fields s p objectType g initializer hp hconn a han).2.1]
      rw [hst.1] at ha
      exact h.other a (by omega) hne

theorem Parented.after_adopt (h : Parented s) (c child : Nat) (s' : State)
    (ha : adopt s c child = some s') : Parented s' := by
  obtain ⟨hc, hchild, p, hp, rfl⟩ := adopt_eq s s' c child ha
  have hlen : ((adoptStore s c child p).modify child
      (fun o => { o with parent := some c })).heap.length = s.heap.length := by
    unfold adoptStore adoptDelete
    rw [State.length_modify, State.length_modify, State.length_modify]
  have hne : rootAddress ≠ child := by
    intro heq
    rw [← heq, h.root] at hp
    cases hp
  refine ⟨?_, ?_, ?_⟩
  · rw [hlen]
    exact h.allocated
  · rw [(adopt_fields s c child p rootAddress).2.2 hne]
    exact h.root
  · intro a hlt hroot
    rw [hlen] at hlt
    by_cases hac : a = child
    · refine ⟨c, ?_⟩
      rw [hac, State.obj_modify_self]
      unfold adoptStore adoptDelete
      rw [State.length_modify, State.length_modify]
      exact hchild
    · rw [(adopt_fields s c child p a).2.2 hac]
      exact h.other a hlt hroot

theorem Parented.after_dispose (h : Parented s) (o : Nat) (reason : List String) (fuel : Nat)
    (s' : State) (hd : dispose fuel s o reason = some s') : Parented s' := by
  obtain ⟨D, heff, _⟩ := dispose_spec reason fuel s o s' hd
  refine ⟨?_, ?_, ?_⟩
  · rw [heff.len]
    exact h.allocated
  · rw [(heff.fields rootAddress).2.1]
    exact h.root
  · intro a ha hne
    rw [heff.len] at ha
    rw [(heff.fields a).2.1]
    exact h.other a ha hne

theorem Reachable.parented (h : Reachable true s) : Parented s := by
  induction h with
  | root => exact Parented.root_state
  | create p objectType g initializer hprev hp _ ih =>
    exact ih.after_create p objectType g initializer hp
      ((Reachable.strong hprev).connected p hp)
  | adopt c child _ _ ha ih => exact ih.after_adopt c child _ ha
  | dispose o reason fuel _ _ hd ih => exact ih.after_dispose o reason fuel _ hd

theorem not_live_of_not_mem (s : State) (a : Nat)
    (h : ∀ e ∈ s.connection.objects, e.2 ≠ a) : ¬ Live s a := by
  rintro ⟨_, k, hk⟩
  exact h (k, a) (GoMap.mem_of_load _ _ _ hk) rfl

theorem not_treeInvariant_of_dead_member (s : State) (p : Nat) (e : String × Nat)
    (hp : p < s.heap.length) (k : String)
    (hk : GoMap.load s.connection.objects k = some p) (he : e ∈ s.objs p)
    (hdead : ∀ r ∈ s.connection.objects, r.2 ≠ e.2) : ¬ TreeInvariant s := by
  intro h
  exact not_live_of_not_mem s e.2 hdead (h.2.1 p ⟨hp, k, hk⟩ e he)

/-- Counterexample to C10: three runs from a fresh root, each by operations of
the claim, end in a state where the live root has a member of its child set
that is no registry entry: a second object created with a guid in use; an
object adopted after it was disposed; an object disposed a second time after
its guid was given to a new object. -/
theorem unguarded_runs_break_invariant :
    (Reachable false duplicateGuidRun ∧ ¬ TreeInvariant duplicateGuidRun) ∧
    (∃ s, adoptAfterDisposeRun = some s ∧ Reachable false s ∧ ¬ TreeInvariant s) ∧
    (∃ s, disposeTwiceRun = some s ∧ Reachable false s ∧ ¬ TreeInvariant s) := by
  have hroot : Reachable false rootState := Reachable.root
  have hpage : Reachable false rootWithPage :=
    Reachable.create 0 "Page" "page@1" [] hroot (by decide) (fun h => by cases h)
  have htree : Reachable false sampleTree :=
    Reachable.create 1 "Page" "page@1" []
      (Reachable.create 0 "Browser" "browser@1" [] hroot (by decide) (fun h => by cases h))
      (by decide) (fun h => by cases h)
  refine ⟨⟨?_, ?_⟩, ?_, ?_⟩
  · exact Reachable.create 1 "Page" "page@1" [] hpage (by decide) (fun h => by cases h)
  · exact not_treeInvariant_of_dead_member duplicateGuidRun 0 ("page@1", 1) (by decide) ""
      (by decide) (by decide) (by decide)
  · have h1 : ∃ s1, dispose 2 rootWithPage 1 [] = some s1 ∧ ∃ s2, adopt s1 0 1 = some s2 ∧
        adoptAfterDisposeRun = some s2 := ⟨_, rfl, _, rfl, rfl⟩
    obtain ⟨s1, hs1, s2, hs2, hrun⟩ := h1
    refine ⟨s2, hrun, ?_, ?_⟩
    · exact Reachable.adopt 0 1 (Reachable.dispose 1 [] 2 hpage (fun h => by cases h) hs1)
        (fun h => by cases h) hs2
    · have hrun' : adoptAfterDisposeRun = some s2 := hrun
      have : s2 = (adoptAfterDisposeRun.getD State.empty) := by rw [hrun']; rfl
      subst this
      exact not_treeInvariant_of_dead_member _ 0 ("page@1", 1) (by decide) ""
        (by decide) (by decide) (by decide)
  · have h1 : ∃ s1, dispose 2 sampleTree 2 [] = some s1 ∧
        ∃ s2, dispose 2 (newBindingCall s1 0 "Page" "page@1" []).1 2 [] = some s2 ∧
        disposeTwiceRun = some s2 := ⟨_, rfl, _, rfl, rfl⟩
    obtain ⟨s1, hs1, s2, hs2, hrun⟩ := h1
    refine ⟨s2, hrun, ?_, ?_⟩
    · have hlen : 0 < s1.heap.length := by
        have : s1 = ((dispose 2 sampleTree 2 []).getD State.empty) := by rw [hs1]; rfl
        subst this
        decide
      exact Reachable.dispose 2 [] 2
        (Reachable.create 0 "Page" "page@1" []
          (Reachable.dispose 2 [] 2 htree (fun h => by cases h) hs1) hlen
          (fun h => by cases h))
        (fun h => by cases h) hs2
    · have : s2 = (disposeTwiceRun.getD State.empty) := by rw [hrun]; rfl
      subst this
      exact not_treeInvariant_of_dead_member _ 0 ("page@1", 3) (by decide) ""
        (by decide) (by decide) (by decide)

/-- C10, amended: in every state reached from a fresh root by constructor
calls whose guid has no registry entry, by `adopt` of a live child and by
`dispose` of a live object, every live object other than the root has a
parent, is the registry entry for its guid and is a member of exactly one
child set, its parent's, under its guid and no other key; every member of the
child set of a live object is live; and the root has no parent. -/
theorem reachable_tree_invariant (s : State) (h : Reachable true s) : TreeInvariant s :=
  (Reachable.strong h).treeInvariant (Reachable.parented h)

/-- Witness of the amended C10: from the sample tree the root adopts `page@1`
and `browser@1` is disposed; both are live when the operation starts.  In the
state reached `page@1`, at address 2, is live, is not the root and has the root
as its parent. -/
theorem reachable_tree_invariant_witness :
    ∃ s, guardedRun = some s ∧ Reachable true s ∧ TreeInvariant s ∧
      Live s 2 ∧ 2 ≠ rootAddress ∧ (s.obj 2).parent = some rootAddress := by
  have htree : Reachable true sampleTree :=
    Reachable.create 1 "Page" "page@1" []
      (Reachable.create 0 "Browser" "browser@1" [] Reachable.root (by decide)
        (fun _ => by decide))
      (by decide) (fun _ => by decide)
  have h1 : ∃ s1, adopt sampleTree 0 2 = some s1 ∧ ∃ s2, dispose 2 s1 1 ["gc"] = some s2 ∧
      guardedRun = some s2 := ⟨_, rfl, _, rfl, rfl⟩
  obtain ⟨s1, hs1, s2, hs2, hrun⟩ := h1
  have hr1 : Reachable true s1 :=
    Reachable.adopt 0 2 htree (fun _ => ⟨by decide, "page@1", by decide⟩) hs1
  have hlive : Live s1 1 := by
    have : s1 = ((adopt sampleTree 0 2).getD State.empty) := by rw [hs1]; rfl
    subst this
    exact ⟨by decide, "browser@1", by decide⟩
  have hr2 : Reachable true s2 := Reachable.dispose 1 ["gc"] 2 hr1 (fun _ => hlive) hs2
  refine ⟨s2, hrun, hr2, reachable_tree_invariant s2 hr2, ?_⟩
  have : s2 = (guardedRun.getD State.empty) := by rw [hrun]; rfl
  subst this
  exact ⟨⟨by decide, "page@1", by decide⟩, by decide, by decide⟩

/-! ## Every reachable state has owned entries -/

theorem owned_create (s : State) (hconn : Connected s) (hown : EntriesOwned s) (p : Nat)
    (objectType g : String) (initializer : GoMap GoValue) (hp : p < s.heap.length) :
    Connected (newBindingCall s p objectType g initializer).1 ∧
    EntriesOwned (newBindingCall s p objectType g initializer).1 := by
  have hc := hconn p hp
  obtain ⟨hlen, _, _⟩ := newBindingCall_state s p objectType g initializer hp hc
  have hobjs := newBindingCall_objs s p objectType g initializer hp hc
  have hfld := newBindingCall_fields s p objectType g initializer hp hc
  have hnew := newBindingCall_new s p objectType g initializer hp hc
  constructor
  · intro a ha
    by_cases han : a = s.heap.length
    · rw [han]; exact hnew.2.2
    · rw [(hfld a han).2.2]
      exact hconn a (by rw [hlen] at ha; omega)
  · intro q _ e he
    rw [hobjs] at he
    have hold : e ∈ s.objs q →
        e.2 < (newBindingCall s p objectType g initializer).1.heap.length ∧
        ((newBindingCall s p objectType g initializer).1.obj e.2).parent = some q ∧
        ((newBindingCall s p objectType g initializer).1.obj e.2).guid = e.1 := by
      intro h1
      have h2 := hown.entry h1
      rw [hlen, (hfld e.2 (Nat.ne_of_lt h2.1)).1, (hfld e.2 (Nat.ne_of_lt h2.1)).2.1]
      exact ⟨Nat.lt_succ_of_lt h2.1, h2.2⟩
    split at he
    · rename_i hqp
      rcases (GoMap.mem_store _ _ _ _).1 he with h1 | h1
      · rw [h1, hqp, hlen]
        exact ⟨Nat.lt_succ_self _, hnew.2.1, hnew.1⟩
      · exact hold (hqp ▸ h1.1)
    · exact hold he

theorem owned_adopt (s : State) (hconn : Connected s) (hown : EntriesOwned s) (c child : Nat)
    (s' : State) (ha : adopt s c child = some s') : Connected s' ∧ EntriesOwned s' := by
  obtain ⟨hc, hch, p, hp, hs'⟩ := adopt_eq s s' c child ha
  subst hs'
  have hlen2 : (adoptStore s c child p).heap.length = s.heap.length := by
    unfold adoptStore
    rw [State.length_modify]
    exact State.length_modify _ _ _
  have hlen : ((adoptStore s c child p).modify child
      (fun o => { o with parent := some c })).heap.length = s.heap.length := by
    rw [State.length_modify, hlen2]
  have hfld := adopt_fields s c child p
  have hparent : (((adoptStore s c child p).modify child
      (fun o => { o with parent := some c })).obj child).parent = some c := by
    rw [State.obj_modify_self _ _ _ (by rw [hlen2]; exact hch)]
  constructor
  · intro a ha
    rw [(hfld a).2.1]
    exact hconn a (hlen ▸ ha)
  · intro q _ e he
    rw [hlen]
    rw [adopt_objs s c child p hc q] at he
    have hold : e ∈ s.objs q → e.1 ≠ (s.obj child).guid ∨ (q ≠ p) →
        e.2 < s.heap.length ∧
        (((adoptStore s c child p).modify child
          (fun o => { o with parent := some c })).obj e.2).parent = some q ∧
        (((adoptStore s c child p).modify child
          (fun o => { o with parent := some c })).obj e.2).guid = e.1 := by
      intro h1 hk
      have h2 := hown.entry h1
      have hne : e.2 ≠ child := by
        intro hec
        rw [hec, hp] at h2
        rcases hk with hk | hk
        · exact hk h2.2.2.symm
        · exact hk (Option.some.inj h2.2.1).symm
      rw [(hfld e.2).1, (hfld e.2).2.2 hne]
      exact h2
    by_cases hqc : q = c
    · rw [if_pos hqc] at he
      rcases (GoMap.mem_store _ _ _ _).1 he with h1 | h1
      · rw [h1, hqc]
        exact ⟨hch, hparent, (hfld child).1⟩
      · have h3 : e ∈ s.objs q := by
          rw [hqc]
          have h4 := h1.1
          split at h4
          · exact ((GoMap.mem_delete _ _ _).1 h4).1
          · exact h4
        exact hold h3 (Or.inl h1.2)
    · rw [if_neg hqc] at he
      split at he
      · rw [GoMap.mem_delete] at he
        exact hold he.1 (Or.inl he.2)
      · rename_i hqp
        exact hold he (Or.inr hqp)

theorem Reachable.owned {guarded : Bool} (h : Reachable guarded s) :
    Connected s ∧ EntriesOwned s := by
  induction h with
  | root => exact ⟨by decide, by decide⟩
  | create p objectType g initializer _ hp _ ih =>
    exact owned_create _ ih.1 ih.2 p objectType g initializer hp
  | adopt c child _ _ ha ih => exact owned_adopt _ ih.1 ih.2 c child _ ha
  | dispose o reason fuel _ _ hd ih =>
    obtain ⟨D, hE, _, _⟩ := dispose_spec reason fuel _ o _ hd
    exact ⟨hE.shrinks.connected_of ih.1, hE.shrinks.owned_of ih.2⟩

/-- C5: in every state that constructor calls, `adopt` and `dispose` reach
from a fresh root, for an object `c` and a child with a parent `p`:
`c.adopt(child)` returns, the registry is the same after each of its three
statements, and afterwards the parent of the child is `c`, the child is the
entry of `c` under its guid, and no object other than `c` has the child in its
child set (in particular not `p`, when `p` is not `c`). -/
theorem adopt_reparents (s : State) (c child p : Nat) (hs : Reachable false s)
    (hc : c < s.heap.length) (hchild : child < s.heap.length)
    (hp : (s.obj child).parent = some p) :
    ∃ s', adopt s c child = some s' ∧
      (adoptDelete s child p).connection = s.connection ∧
      (adoptStore s c child p).connection = s.connection ∧
      s'.connection = s.connection ∧
      (s'.obj child).parent = some c ∧
      (s'.obj child).guid = (s.obj child).guid ∧
      GoMap.load (s'.objs c) (s'.obj child).guid = some child ∧
      (∀ q e, e ∈ s'.objs q → e.2 = child → q = c) ∧
      (p ≠ c → ∀ e ∈ s'.objs p, e.2 ≠ child) := by
  apply adopt_effect s c child p hc hchild hp
  intro q _ e he hec
  have h1 := hs.owned.2.entry he
  rw [hec, hp] at h1
  exact ⟨(Option.some.inj h1.2.1).symm, h1.2.2.symm⟩

/-- Witness of C5: in the tree root / `browser@1` / `page@1`, the root adopts
the page. -/
theorem adopt_reparents_witness :
    ∃ s', adopt sampleTree 0 2 = some s' ∧
      (adoptDelete sampleTree 2 1).connection = sampleTree.connection ∧
      (adoptStore sampleTree 0 2 1).connection = sampleTree.connection ∧
      s'.connection = sampleTree.connection ∧
      (s'.obj 2).parent = some 0 ∧
      (s'.obj 2).guid = (sampleTree.obj 2).guid ∧
      GoMap.load (s'.objs 0) (s'.obj 2).guid = some 2 ∧
      (∀ q e, e ∈ s'.objs q → e.2 = 2 → q = 0) ∧
      (1 ≠ 0 → ∀ e ∈ s'.objs 1, e.2 ≠ 2) :=
  adopt_reparents sampleTree 0 2 1
    (Reachable.create 1 "Page" "page@1" []
      (Reachable.create 0 "Browser" "browser@1" [] Reachable.root (by decide)
        (fun h => by cases h))
      (by decide) (fun h => by cases h))
    (by decide) (by decide) (by decide)

/-! ## Further properties -/

theorem keys_create (s : State) (hconn : Connected s) (hk : KeysNodup s) (p : Nat)
    (objectType g : String) (initializer : GoMap GoValue) (hp : p < s.heap.length) :
    KeysNodup (newBindingCall s p objectType g initializer).1 := by
  intro q _
  rw [newBindingCall_objs s p objectType g initializer hp (hconn p hp)]
  split
  · exact GoMap.keys_nodup_store _ _ _ (hk.nodup_at p)
  · exact hk.nodup_at q

theorem keys_adopt (s : State) (hk : KeysNodup s) (c child : Nat) (s' : State)
    (ha : adopt s c child = some s') : KeysNodup s' := by
  obtain ⟨hc, _, p, _, hs'⟩ := adopt_eq s s' c child ha
  subst hs'
  intro q _
  rw [adopt_objs s c child p hc q]
  split
  · apply GoMap.keys_nodup_store
    split
    · exact GoMap.keys_nodup_delete _ _ (hk.nodup_at c)
    · exact hk.nodup_at c
  · split
    · exact GoMap.keys_nodup_delete _ _ (hk.nodup_at q)
    · exact hk.nodup_at q

theorem Reachable.keysNodup {guarded : Bool} (h : Reachable guarded s) : KeysNodup s := by
  induction h with
  | root => decide
  | @create s0 p objectType g initializer hs hp _ ih =>
    exact keys_create s0 hs.owned.1 ih p objectType g initializer hp
  | adopt c child _ _ ha ih => exact keys_adopt _ ih c child _ ha
  | dispose o reason fuel _ _ hd ih =>
    obtain ⟨D, hE, _, _⟩ := dispose_spec reason fuel _ o _ hd
    exact hE.shrinks.keys_of ih

/-- In every state that constructor calls, `adopt` and `dispose` reach from a
fresh root, with or without guards, `dispose` of any allocated object returns:
a recursion depth of the number of allocated objects plus one is enough, also
when `adopt` has made an object a descendant of itself. -/
theorem dispose_returns_in_reachable (guarded : Bool) (s : State) (o : Nat)
    (reason : List String) (hs : Reachable guarded s) (ho : o < s.heap.length) :
    ∃ s', dispose (s.heap.length + 1) s o reason = some s' := by
  apply dispose_returns reason (s.heap.length + 1) s o [] hs.owned.2 hs.keysNodup hs.owned.1
    (NoIn.empty s)
  · simp
  · intro b hb
    simp only [List.mem_singleton] at hb
    rw [hb]; exact ho
  · simp

/-- A run of `dispose` in a state where two objects own each other. -/
theorem dispose_returns_in_reachable_witness :
    ∃ s, adoptedCycle = some s ∧ ∃ s', dispose (s.heap.length + 1) s 1 [] = some s' := by
  have htree : Reachable false sampleTree :=
    Reachable.create 1 "Page" "page@1" []
      (Reachable.create 0 "Browser" "browser@1" [] Reachable.root (by decide)
        (fun h => by cases h))
      (by decide) (fun h => by cases h)
  have h1 : ∃ s1, adopt sampleTree 2 1 = some s1 ∧ adoptedCycle = some s1 := ⟨_, rfl, rfl⟩
  obtain ⟨s1, hs1, hrun⟩ := h1
  have hlen : 1 < s1.heap.length := by
    have : s1 = ((adopt sampleTree 2 1).getD State.empty) := by rw [hs1]; rfl
    subst this
    decide
  exact ⟨s1, hrun, dispose_returns_in_reachable false s1 1 []
    (Reachable.adopt 2 1 htree (fun h => by cases h) hs1) hlen⟩

/-- When the body of `Call` panics with a value that implements `error` (a
runtime error before `f` is called, or a panic of `f`), `Call` sends exactly
one message, `reject` with the serialized error, and returns normally. -/
theorem Call_error_panic_rejects (env : Env) (b : channelOwner) (f : BindingCallFunction)
    (message : String) (h : callBody env b f = Except.error (PanicValue.error message)) :
    (Call env b f).sent =
      [b.Send "reject" [("error", GoValue.dict (serializeError env message))]] ∧
    (Call env b f).panic = none := by
  unfold Call
  rw [h]
  simp only [callRecover]
  cases env.sendErr (b.Send "reject" [("error", GoValue.dict (serializeError env message))]) <;>
    exact ⟨rfl, rfl⟩

/-- A panic of `f` with an error value is rejected. -/
theorem Call_error_panic_rejects_witness :
    (Call sampleEnv sampleBinding panicWithError).sent =
      [sampleBinding.Send "reject" [("error", GoValue.dict (serializeError sampleEnv "boom"))]] ∧
    (Call sampleEnv sampleBinding panicWithError).panic = none :=
  Call_error_panic_rejects sampleEnv sampleBinding panicWithError "boom" rfl

/-! ## A second dispose, and the objects outside the subtree -/

theorem State.modify_eq_self (s : State) (a : Nat) (f : channelOwner → channelOwner)
    (h : f (s.obj a) = s.obj a) : s.modify a f = s := by
  have hheap : s.heap.modify f a = s.heap := by
    apply List.ext_getElem?
    intro i
    rw [List.getElem?_modify]
    by_cases hai : a = i
    · subst hai
      cases hx : s.heap[a]? with
      | none => rfl
      | some x =>
        have : s.obj a = x := by simp [State.obj, hx]
        rw [this] at h
        simp [h]
    · cases hx : s.heap[i]? <;> simp [hai]
  unfold State.modify
  rw [hheap]

theorem GoMap.delete_eq_self {α : Type} (m : GoMap α) (k : String)
    (h : ∀ e ∈ m, e.1 ≠ k) : GoMap.delete m k = m := by
  unfold GoMap.delete
  rw [List.filter_eq_self]
  intro e he
  simpa using h e he

theorem Eff.head_again (hE : Eff s s1 D reason) (o : Nat) (ho : o ∈ D) :
    disposeHead s1 o reason = s1 := by
  have hov : o < s.heap.length := hE.valid o ho
  have hg : (s1.obj o).guid = (s.obj o).guid := (hE.fields o).1
  have hp : (s1.obj o).parent = (s.obj o).parent := (hE.fields o).2.1
  have h1 : unlinkFromParent s1 o = s1 := by
    unfold unlinkFromParent
    cases hpar : (s1.obj o).parent with
    | none => rfl
    | some p =>
      simp only []
      apply State.modify_eq_self
      have hdel : GoMap.delete (s1.obj p).objects (s1.obj o).guid = (s1.obj p).objects := by
        apply GoMap.delete_eq_self
        intro e he hk
        obtain ⟨_, _, hit⟩ := hE.mem_objs (p := p) he
        rw [hitBy_eq_false_iff] at hit
        exact hit o ho (by rw [← hp, hpar]) (by rw [← hg, hk])
      rw [hdel]
  have h2 : registryDelete s1 (s1.obj o).guid = s1 := by
    unfold registryDelete
    have hdel : GoMap.delete s1.connection.objects (s1.obj o).guid = s1.connection.objects := by
      apply GoMap.delete_eq_self
      intro e he hk
      rw [hE.reg, List.mem_filter] at he
      have : (s.obj o).guid ∈ guidsOf s D := List.mem_map.2 ⟨o, ho, rfl⟩
      rw [hk, hg] at he
      simp [this] at he
    rw [hdel]
  have h3 : recordReason s1 o reason = s1 := by
    unfold recordReason
    cases reason with
    | nil => rfl
    | cons r rs =>
      simp only []
      apply State.modify_eq_self
      have hw : (s1.obj o).wasCollected = (r == "gc") := by
        rw [hE.obj o hov]
        simp [disposedObj, ho, collected]
      rw [← hw]
  unfold disposeHead
  rw [h1, h2, h3]

/-- C11: in a well-formed proxy tree `o.dispose(reason...)` returns, and a second
`o.dispose(reason...)` right after it returns the state the first call left:
the registry, every child set and every `wasCollected` flag (and every other
field) are as the first call left them. -/
theorem dispose_idempotent (s : State) (o : Nat) (reason : List String)
    (hwf : WellFormed s) (ho : o < s.heap.length) :
    (∃ s1, dispose (s.heap.length + 1) s o reason = some s1) ∧
    ∀ fuel s1, dispose fuel s o reason = some s1 →
      ∀ k, dispose (k + 1) s1 o reason = some s1 := by
  refine ⟨hwf.returns o ho reason, ?_⟩
  intro fuel s1 h k
  obtain ⟨D, hE, _, _⟩ := dispose_spec reason fuel s o s1 h
  have hoD : o ∈ o :: D := List.mem_cons_self _ _
  have hhead := hE.head_again o hoD
  have hobjs : s1.objs o = [] := hE.objs_of_mem hoD
  have hconn : (s1.obj o).connection = some () := by
    rw [(hE.fields o).2.2]
    exact hwf.connected o ho
  rw [dispose_succ, if_pos (by rw [hE.len]; exact ho), hconn]
  simp only [hhead, hobjs, disposeLoop_nil]
  congr 1
  apply State.modify_eq_self
  have : (s1.obj o).objects = [] := hobjs
  rw [← this]

/-- Witness of C11: `browser@1` of the sample tree is disposed twice with the
reason `gc`. -/
theorem dispose_idempotent_witness :
    (∃ s1, dispose (sampleTree.heap.length + 1) sampleTree 1 ["gc"] = some s1) ∧
    ∀ fuel s1, dispose fuel sampleTree 1 ["gc"] = some s1 →
      ∀ k, dispose (k + 1) s1 1 ["gc"] = some s1 :=
  dispose_idempotent sampleTree 1 ["gc"] (by decide) (by decide)

theorem hitBy_outside (hwf : WellFormed s) (o : Nat) (D : List Nat)
    (hD : ∀ x, x ∈ D ↔ Desc s o x) (y : Nat) (hy : ¬ Desc s o y) (k : String) :
    hitBy s D y k = (decide ((s.obj o).parent = some y) && ((s.obj o).guid == k)) := by
  have hoD : o ∈ D := (hD o).2 Relation.ReflTransGen.refl
  cases hh : hitBy s D y k with
  | true =>
    obtain ⟨z, hz, hzp, hzg⟩ := (hitBy_iff s D y k).1 hh
    have hzo : z = o := by
      rcases Relation.ReflTransGen.cases_tail ((hD z).1 hz) with h1 | ⟨q, hq, e, he, hez⟩
      · exact h1
      · exfalso
        have h2 := hwf.owned.entry he
        rw [hez, hzp] at h2
        have : y = q := Option.some.inj h2.2.1
        exact hy (this ▸ hq)
    rw [hzo] at hzp hzg
    simp [hzp, hzg]
  | false =>
    rw [hitBy_eq_false_iff] at hh
    by_cases hp : (s.obj o).parent = some y
    · have := hh o hoD hp
      simp [hp, this]
    · simp [hp]

/-- C14: in a well-formed proxy tree `o.dispose(reason...)` returns, and an
object that is neither `o` nor a transitive descendant of `o` keeps every
registry entry that points to it and all its fields, its parent and its
`wasCollected` flag among them, except the child set of the parent of `o`:
that one loses the key of `o` and nothing else, so every entry of it that
does not point to `o` stays. -/
theorem dispose_frame (s : State) (o : Nat) (reason : List String)
    (hwf : WellFormed s) (ho : o < s.heap.length) :
    (∃ s', dispose (s.heap.length + 1) s o reason = some s') ∧
    ∀ fuel s', dispose fuel s o reason = some s' →
      ∀ y, y < s.heap.length → ¬ Desc s o y →
        (∀ k, GoMap.load s.connection.objects k = some y →
          GoMap.load s'.connection.objects k = some y) ∧
        s'.obj y = { s.obj y with
          objects :=
            if (s.obj o).parent = some y then GoMap.delete (s.objs y) (s.obj o).guid
            else s.objs y } ∧
        (s'.obj y).parent = (s.obj y).parent ∧
        (s'.obj y).wasCollected = (s.obj y).wasCollected ∧
        (∀ e ∈ s.objs y, e.2 ≠ o → e ∈ s'.objs y) := by
  refine ⟨hwf.returns o ho reason, ?_⟩
  intro fuel s' h y hyv hy
  obtain ⟨D, hE, hD⟩ := hwf.dispose_eff o ho reason fuel s' h
  have hyD : y ∉ D := fun hm => hy ((hD y).1 hm)
  have hhit := hitBy_outside hwf o D hD y hy
  have hfilter : (s.objs y).filter (fun e => !hitBy s D y e.1) =
      if (s.obj o).parent = some y then GoMap.delete (s.objs y) (s.obj o).guid
      else s.objs y := by
    by_cases hp : (s.obj o).parent = some y
    · rw [if_pos hp]
      unfold GoMap.delete
      apply List.filter_congr
      intro e _
      rw [hhit e.1]
      by_cases hk : (s.obj o).guid = e.1
      · simp [hp, hk]
      · have hk2 : ¬ (e.1 = (s.obj o).guid) := fun h => hk h.symm
        have h1 : ((s.obj o).guid == e.1) = false := by simpa using hk
        have h2 : (e.1 != (s.obj o).guid) = true := by simpa using hk2
        simp [hp, h1, h2]
    · rw [if_neg hp, List.filter_eq_self]
      intro e _
      rw [hhit e.1]
      simp [hp]
  have hobj : s'.obj y = { s.obj y with
      objects :=
        if (s.obj o).parent = some y then GoMap.delete (s.objs y) (s.obj o).guid
        else s.objs y } := by
    rw [hE.obj y hyv]
    unfold disposedObj
    rw [if_neg hyD, hfilter]
  refine ⟨?_, hobj, ?_, ?_, ?_⟩
  · intro k hk
    have hmem := GoMap.mem_of_load _ _ _ hk
    have hkey := (hwf.registry (k, y) hmem).2
    rw [hE.reg, GoMap.load_filter_key s.connection.objects
      (fun x => !(guidsOf s D).contains x) k]
    have hnot : k ∉ guidsOf s D := by
      intro hin
      obtain ⟨z, hz, hzg⟩ := List.mem_map.1 hin
      have : z = y := hwf.guids z (hE.valid z hz) y hyv (by rw [hzg]; exact hkey.symm)
      exact hyD (this ▸ hz)
    simp [hnot, hk]
  · rw [hobj]
  · rw [hobj]
  · intro e he heo
    apply hE.mem_objs_of he hyD
    rw [hhit e.1]
    by_cases hp : (s.obj o).parent = some y
    · have h2 := hwf.owned.entry he
      have hne : (s.obj o).guid ≠ e.1 := by
        intro hg
        exact heo (hwf.guids e.2 h2.1 o ho (by rw [h2.2.2, hg]))
      simp [hp, hne]
    · simp [hp]

/-- Witness of C14: `page@1` of the sample tree is disposed; the root and
`browser@1` are outside its subtree. -/
theorem dispose_frame_witness :
    (∃ s', dispose (sampleTree.heap.length + 1) sampleTree 2 ["gc"] = some s') ∧
    ∀ fuel s', dispose fuel sampleTree 2 ["gc"] = some s' →
      ∀ y, y < sampleTree.heap.length → ¬ Desc sampleTree 2 y →
        (∀ k, GoMap.load sampleTree.connection.objects k = some y →
          GoMap.load s'.connection.objects k = some y) ∧
        s'.obj y = { sampleTree.obj y with
          objects :=
            if (sampleTree.obj 2).parent = some y then
              GoMap.delete (sampleTree.objs y) (sampleTree.obj 2).guid
            else sampleTree.objs y } ∧
        (s'.obj y).parent = (sampleTree.obj y).parent ∧
        (s'.obj y).wasCollected = (sampleTree.obj y).wasCollected ∧
        (∀ e ∈ sampleTree.objs y, e.2 ≠ 2 → e ∈ s'.objs y) :=
  dispose_frame sampleTree 2 ["gc"] (by decide) (by decide)

/-! ## Removal of listeners -/

theorem eventEmitter.ListenerCount_eq (e : eventEmitter) (name : String) :
    e.ListenerCount name = (e.listeners name).length := by
  unfold eventEmitter.ListenerCount eventEmitter.listeners
  cases GoMap.load e.events name <;> rfl

theorem eventEmitter.listeners_RemoveListener (e : eventEmitter) (name : String)
    (handler : Nat) :
    (e.RemoveListener name handler).listeners name =
      (e.listeners name).filter (fun l => l.handler != handler) := by
  unfold eventEmitter.RemoveListener eventEmitter.listeners
  cases h : GoMap.load e.events name with
  | none => simp [h]
  | some ls => simp [GoMap.load_store_self]

/-- Counterexample to C12: an object that mirrors `request` and has no listener
of it; `RemoveListener("request", h)` sends an unsubscribe message. -/
theorem RemoveListener_without_listener_unsubscribes :
    sampleOwner.eventEmitter.ListenerCount "request" = 0 ∧
    (sampleOwner.RemoveListener "request" 1).1.eventEmitter.ListenerCount "request" = 0 ∧
    (sampleOwner.RemoveListener "request" 1).2 =
      [sampleOwner.SendNoReplyInternal "updateSubscription"
        [("event", GoValue.str "request"), ("enabled", GoValue.bool false)]] := by
  refine ⟨by decide, by decide, rfl⟩

/-- C12, amended: for an event `e` that is a key of the subscription map
(mapped to `p`), `RemoveListener(e, h)` sends one unsubscribe message exactly
when no listener of `e` is left after the call, and nothing otherwise.  With a
handler that was never registered, for an event with at least one listener,
the count is unchanged and nothing is sent; for an event that had zero
listeners before the call one unsubscribe message is sent. -/
theorem RemoveListener_unsubscribes_iff_none_left (c : channelOwner) (e p : String) (h : Nat)
    (hkey : GoMap.load c.eventToSubscriptionMapping e = some p) :
    ((c.RemoveListener e h).1.eventEmitter.ListenerCount e = 0 →
      (c.RemoveListener e h).2 = [c.SendNoReplyInternal "updateSubscription"
        [("event", GoValue.str p), ("enabled", GoValue.bool false)]]) ∧
    (0 < (c.RemoveListener e h).1.eventEmitter.ListenerCount e →
      (c.RemoveListener e h).2 = []) ∧
    ((∀ l ∈ c.eventEmitter.listeners e, l.handler ≠ h) →
      0 < c.eventEmitter.ListenerCount e →
      (c.RemoveListener e h).1.eventEmitter.ListenerCount e = c.eventEmitter.ListenerCount e ∧
      (c.RemoveListener e h).2 = []) ∧
    (c.eventEmitter.ListenerCount e = 0 →
      (c.RemoveListener e h).2 = [c.SendNoReplyInternal "updateSubscription"
        [("event", GoValue.str p), ("enabled", GoValue.bool false)]]) := by
  have hafter : (c.RemoveListener e h).1.eventEmitter.ListenerCount e =
      ((c.eventEmitter.listeners e).filter (fun l => l.handler != h)).length := by
    show (c.eventEmitter.RemoveListener e h).ListenerCount e = _
    rw [eventEmitter.ListenerCount_eq, eventEmitter.listeners_RemoveListener]
  have hzero : (c.RemoveListener e h).1.eventEmitter.ListenerCount e = 0 →
      (c.RemoveListener e h).2 = [c.SendNoReplyInternal "updateSubscription"
        [("event", GoValue.str p), ("enabled", GoValue.bool false)]] := by
    intro h0
    simp only [channelOwner.RemoveListener] at h0 ⊢
    simp [h0, channelOwner.updateSubscription, hkey, channelOwner.SendNoReplyInternal]
  have hpos : 0 < (c.RemoveListener e h).1.eventEmitter.ListenerCount e →
      (c.RemoveListener e h).2 = [] := by
    intro h0
    have h1 := Nat.pos_iff_ne_zero.1 h0
    simp only [channelOwner.RemoveListener] at h1 ⊢
    simp [h1]
  refine ⟨hzero, hpos, ?_, ?_⟩
  · intro hnever hcount
    have hfil : (c.eventEmitter.listeners e).filter (fun l => l.handler != h) =
        c.eventEmitter.listeners e := by
      rw [List.filter_eq_self]
      intro l hl
      simpa using hnever l hl
    have hsame : (c.RemoveListener e h).1.eventEmitter.ListenerCount e =
        c.eventEmitter.ListenerCount e := by
      rw [hafter, hfil, eventEmitter.ListenerCount_eq]
    exact ⟨hsame, hpos (by rw [hsame]; exact hcount)⟩
  · intro h0
    apply hzero
    rw [hafter]
    rw [eventEmitter.ListenerCount_eq] at h0
    have : c.eventEmitter.listeners e = [] := List.length_eq_zero.1 h0
    rw [this]
    rfl

/-- Witness of the amended C12: a handler that was never registered is
removed from an event with one listener. -/
theorem RemoveListener_unsubscribes_iff_none_left_witness :
    (∀ l ∈ listeningOwner.eventEmitter.listeners "request", l.handler ≠ 8) ∧
    0 < listeningOwner.eventEmitter.ListenerCount "request" ∧
    (listeningOwner.RemoveListener "request" 8).1.eventEmitter.ListenerCount "request" =
      listeningOwner.eventEmitter.ListenerCount "request" ∧
    (listeningOwner.RemoveListener "request" 8).2 = [] :=
  have h := (RemoveListener_unsubscribes_iff_none_left listeningOwner "request" "request" 8
    (by decide)).2.2.1 (by decide) (by decide)
  ⟨by decide, by decide, h.1, h.2⟩

/-! ## The arguments of a binding call -/

theorem CallIn_function (env : Env) (b : channelOwner) (f : BindingCallFunction)
    {σ : Type} (vars : σ) :
    CallIn env b (fun source args v => (f source args, v)) vars = (Call env b f, vars) := by
  unfold CallIn callBodyIn Call callBody
  cases callSource env b with
  | error r => rfl
  | ok source =>
    cases callArgs env b with
    | error r => rfl
    | ok funcArgs =>
      simp only []
      cases f source funcArgs with
      | error r => rfl
      | ok result =>
        simp only []
        cases env.sendErr (b.Send "resolve" [("result", env.serializeArgument result)]) <;> rfl

theorem CallIn_eq (env : Env) (b : channelOwner) (source : BindingSource)
    (funcArgs : List GoValue) (hsrc : callSource env b = Except.ok source)
    (hargs : callArgs env b = Except.ok funcArgs) {σ : Type} (f : BindingCallClosure σ)
    (vars : σ) :
    CallIn env b f vars =
      (Call env b (fun _ _ => (f source funcArgs vars).1), (f source funcArgs vars).2) := by
  unfold CallIn callBodyIn Call callBody
  rw [hsrc, hargs]
  simp only []
  rcases f source funcArgs vars with ⟨r | result, vars1⟩
  · rfl
  · simp only []
    cases env.sendErr (b.Send "resolve" [("result", env.serializeArgument result)]) <;> rfl

theorem callRecover_store_args (env : Env) (b : channelOwner) (v : GoValue) (r : PanicValue) :
    callRecover env { b with initializer := GoMap.store b.initializer "args" v } r =
      callRecover env b r := by
  cases r <;> rfl

theorem GoMap.index_store_ne (m : GoMap GoValue) (k : String) (v : GoValue) (k' : String)
    (h : k' ≠ k) : GoMap.index (GoMap.store m k v) k' = GoMap.index m k' := by
  unfold GoMap.index
  rw [GoMap.load_store, if_neg h]

theorem callSource_store_args (env : Env) (b : channelOwner) (v : GoValue) :
    callSource env { b with initializer := GoMap.store b.initializer "args" v } =
      callSource env b := by
  unfold callSource
  simp only []
  rw [GoMap.index_store_ne b.initializer "args" v "frame" (by decide)]

theorem callArgs_store_args (env : Env) (b : channelOwner) (v handle : GoValue)
    (hh : GoMap.load b.initializer "handle" = some handle) :
    callArgs env { b with initializer := GoMap.store b.initializer "args" v } =
      callArgs env b := by
  unfold callArgs
  simp only []
  rw [GoMap.load_store, if_neg (by decide), hh]

/-- Counterexample to C13: three initializers for which `Call` does not invoke
`f`, so that a function which records its calls has recorded none when `Call`
ends and `reject` is all that is sent: no handle and no argument list; a
handle but no frame; a handle that is no channel. -/
theorem Call_does_not_invoke :
    (GoMap.load bareBinding.initializer "handle" = none ∧
      (CallIn sampleEnv bareBinding (recordCalls returnOne) []).2 = [] ∧
      (CallIn sampleEnv bareBinding (recordCalls returnOne) []).1.sent.map
        (fun m => m.method) = ["reject"]) ∧
    ((GoMap.load framelessBinding.initializer "handle").isSome = true ∧
      (CallIn sampleEnv framelessBinding (recordCalls returnOne) []).2 = [] ∧
      (CallIn sampleEnv framelessBinding (recordCalls returnOne) []).1.sent.map
        (fun m => m.method) = ["reject"]) ∧
    ((GoMap.load badHandleBinding.initializer "handle").isSome = true ∧
      (CallIn sampleEnv badHandleBinding (recordCalls returnOne) []).2 = [] ∧
      (CallIn sampleEnv badHandleBinding (recordCalls returnOne) []).1.sent.map
        (fun m => m.method) = ["reject"]) := by
  refine ⟨⟨rfl, rfl, rfl⟩, ⟨rfl, rfl, rfl⟩, ⟨rfl, rfl, rfl⟩⟩

/-- C13, amended: when the frame of the initializer resolves to the source
descriptor `source`, `Call` invokes `f` exactly once, for every function `f`
and every state `vars` of the variables `f` closes over: the variables after
`Call` are those after the one call `f source funcArgs vars`, and `Call` does
what it does for a function that returns (or panics with) the outcome of that
call; in particular a function that records its calls has recorded exactly
`(source, funcArgs)`.  With a `handle` key whose value resolves to a proxy,
`funcArgs` is that proxy alone and the run is the same whatever the `args`
entry is; without a `handle` key and with a list under `args`, `funcArgs` has
the length of that list and its `i`-th element is `parseResult` of the `i`-th
element of `initializer["args"]`. -/
theorem Call_marshals_arguments (env : Env) (b : channelOwner)
    (source : BindingSource) (hsrc : callSource env b = Except.ok source) :
    (∀ handle proxy, GoMap.load b.initializer "handle" = some handle →
      env.fromChannel handle = some proxy →
      (∀ (σ : Type) (f : BindingCallClosure σ) (vars : σ),
        CallIn env b f vars =
          (Call env b (fun _ _ => (f source [proxy] vars).1), (f source [proxy] vars).2) ∧
        ∀ v, CallIn env { b with initializer := GoMap.store b.initializer "args" v } f vars =
          CallIn env b f vars) ∧
      ∀ f : BindingCallFunction,
        (CallIn env b (recordCalls f) []).2 = [(source, [proxy])] ∧
        (CallIn env b (recordCalls f) []).1 = Call env b f) ∧
    (∀ initializerArgs, GoMap.load b.initializer "handle" = none →
      GoMap.index b.initializer "args" = GoValue.slice initializerArgs →
      ∃ funcArgs, funcArgs.length = initializerArgs.length ∧
        (∀ i : Nat, funcArgs[i]? = (initializerArgs[i]?).map env.parseResult) ∧
        (∀ (σ : Type) (f : BindingCallClosure σ) (vars : σ),
          CallIn env b f vars =
            (Call env b (fun _ _ => (f source funcArgs vars).1),
              (f source funcArgs vars).2)) ∧
        ∀ f : BindingCallFunction,
          (CallIn env b (recordCalls f) []).2 = [(source, funcArgs)] ∧
          (CallIn env b (recordCalls f) []).1 = Call env b f) := by
  have hrec : ∀ funcArgs, callArgs env b = Except.ok funcArgs → ∀ f : BindingCallFunction,
      (CallIn env b (recordCalls f) []).2 = [(source, funcArgs)] ∧
      (CallIn env b (recordCalls f) []).1 = Call env b f := by
    intro funcArgs hargs f
    rw [CallIn_eq env b source funcArgs hsrc hargs]
    refine ⟨rfl, ?_⟩
    show Call env b (fun _ _ => f source funcArgs) = Call env b f
    unfold Call callBody
    rw [hsrc, hargs]
  constructor
  · intro handle proxy hh hp
    have hargs : callArgs env b = Except.ok [proxy] := by
      unfold callArgs
      rw [hh]
      simp only [hp]
    refine ⟨?_, hrec [proxy] hargs⟩
    intro σ f vars
    refine ⟨CallIn_eq env b source [proxy] hsrc hargs f vars, ?_⟩
    intro v
    unfold CallIn callBodyIn
    rw [callSource_store_args, callArgs_store_args env b v handle hh, hsrc, hargs]
    simp only []
    rcases f source [proxy] vars with ⟨r | result, vars1⟩
    · simp only []
      rw [callRecover_store_args]
    · rfl
  · intro initializerArgs hh hargs
    have hcall : callArgs env b = Except.ok (initializerArgs.map env.parseResult) := by
      unfold callArgs
      rw [hh]
      simp only [hargs]
    refine ⟨initializerArgs.map env.parseResult, List.length_map _ _, ?_, ?_, hrec _ hcall⟩
    · intro i
      exact List.getElem?_map _ _ _
    · intro σ f vars
      exact CallIn_eq env b source _ hsrc hcall f vars

/-- Witness of the amended C13: a binding with a handle, whose `args` entry is
no list; the function that records its calls has recorded one call, with the
source descriptor of the frame and the proxy of the handle. -/
theorem Call_marshals_arguments_witness :
    (CallIn sampleEnv handleBinding (recordCalls returnOne) []).2 =
      [({ Context := GoValue.object "context@1", Page := GoValue.object "page@1",
          Frame := GoValue.object "frame@1" }, [GoValue.object "handle@1"])] :=
  (((Call_marshals_arguments sampleEnv handleBinding
    { Context := GoValue.object "context@1", Page := GoValue.object "page@1",
      Frame := GoValue.object "frame@1" } rfl).1
    (GoValue.channel "handle@1") (GoValue.object "handle@1") rfl rfl).2 returnOne).1

/-! ## Exposed bindings and the subscriptions of a browser context -/

theorem GoMap.load_isSome_iff {α : Type} (m : GoMap α) (k : String) :
    (GoMap.load m k).isSome = true ↔ k ∈ GoMap.keys m := by
  constructor
  · intro h
    by_contra hn
    rw [(GoMap.load_eq_none_iff m k).2 hn] at h
    cases h
  · intro h
    cases hl : GoMap.load m k with
    | none => exact absurd h ((GoMap.load_eq_none_iff m k).1 hl)
    | some v => rfl

/-- C15: when `n` is a key of the binding table of the context or of a page of
its page list, `ExposeBinding(n, ...)` returns an error, sends no message and
leaves the context, its binding table included, as it was; otherwise it
stores the binding under `n`, leaves the page list alone and sends exactly one
message `exposeBinding` with the params `name` = `n` and `needsHandle` = the
handle flag when exactly one is given, `false` otherwise. -/
theorem ExposeBinding_rejects_duplicates (env : Env) (b : browserContextImpl) (n : String)
    (binding : BindingCallFunction) (handle : List Bool) :
    ((n ∈ GoMap.keys b.bindings ∨ ∃ page ∈ b.pages, n ∈ GoMap.keys page.bindings) →
      (ExposeBinding env b n binding handle).err.isSome = true ∧
      (ExposeBinding env b n binding handle).sent = [] ∧
      (ExposeBinding env b n binding handle).context = b ∧
      (ExposeBinding env b n binding handle).context.bindings = b.bindings) ∧
    (¬ (n ∈ GoMap.keys b.bindings ∨ ∃ page ∈ b.pages, n ∈ GoMap.keys page.bindings) →
      (ExposeBinding env b n binding handle).context.bindings =
        GoMap.store b.bindings n binding ∧
      GoMap.load (ExposeBinding env b n binding handle).context.bindings n = some binding ∧
      (ExposeBinding env b n binding handle).context.pages = b.pages ∧
      (ExposeBinding env b n binding handle).sent =
        [b.channelOwner.Send "exposeBinding"
          [("name", GoValue.str n), ("needsHandle", GoValue.bool (needsHandle handle))]]) ∧
    (∀ h : Bool, needsHandle [h] = h) ∧ needsHandle [] = false ∧
    (∀ h1 h2 : Bool, ∀ hs : List Bool, needsHandle (h1 :: h2 :: hs) = false) := by
  have hpages : (b.pages.any (fun page => (GoMap.load page.bindings n).isSome)) = true ↔
      ∃ page ∈ b.pages, n ∈ GoMap.keys page.bindings := by
    rw [List.any_eq_true]
    constructor
    · rintro ⟨page, hp, h⟩
      exact ⟨page, hp, (GoMap.load_isSome_iff _ _).1 h⟩
    · rintro ⟨page, hp, h⟩
      exact ⟨page, hp, (GoMap.load_isSome_iff _ _).2 h⟩
  refine ⟨?_, ?_, fun _ => rfl, rfl, fun _ _ _ => rfl⟩
  · intro hdup
    unfold ExposeBinding
    by_cases hp : (b.pages.any (fun page => (GoMap.load page.bindings n).isSome)) = true
    · rw [if_pos hp]
      exact ⟨rfl, rfl, rfl, rfl⟩
    · rw [if_neg hp]
      have hb : (GoMap.load b.bindings n).isSome = true := by
        rcases hdup with h | h
        · exact (GoMap.load_isSome_iff _ _).2 h
        · exact absurd (hpages.2 h) hp
      rw [if_pos hb]
      exact ⟨rfl, rfl, rfl, rfl⟩
  · intro hnew
    have hp : ¬ (b.pages.any (fun page => (GoMap.load page.bindings n).isSome)) = true :=
      fun h => hnew (Or.inr (hpages.1 h))
    have hb : ¬ (GoMap.load b.bindings n).isSome = true :=
      fun h => hnew (Or.inl ((GoMap.load_isSome_iff _ _).1 h))
    unfold ExposeBinding
    rw [if_neg hp, if_neg hb]
    exact ⟨rfl, GoMap.load_store_self _ _ _, rfl, rfl⟩

/-- Witness of C15: in a context with the binding `fn` and a page with the
binding `pageFn`, both names are refused and `other` is exposed with one
handle flag. -/
theorem ExposeBinding_rejects_duplicates_witness :
    ((ExposeBinding sampleEnv sampleContext "fn" returnOne []).err.isSome = true ∧
      (ExposeBinding sampleEnv sampleContext "fn" returnOne []).sent = []) ∧
    ((ExposeBinding sampleEnv sampleContext "pageFn" returnOne []).err.isSome = true ∧
      (ExposeBinding sampleEnv sampleContext "pageFn" returnOne []).sent = []) ∧
    (ExposeBinding sampleEnv sampleContext "other" returnOne [true]).sent =
      [sampleContext.channelOwner.Send "exposeBinding"
        [("name", GoValue.str "other"), ("needsHandle", GoValue.bool (needsHandle [true]))]] :=
  have h1 := (ExposeBinding_rejects_duplicates sampleEnv sampleContext "fn" returnOne []).1
    (Or.inl (by decide))
  have h2 := (ExposeBinding_rejects_duplicates sampleEnv sampleContext "pageFn" returnOne []).1
    (Or.inr ⟨{ bindings := [("pageFn", returnOne)] }, List.mem_singleton.2 rfl, by decide⟩)
  have h3 := (ExposeBinding_rejects_duplicates sampleEnv sampleContext "other" returnOne
    [true]).2.1 (by
      rintro (h | ⟨page, hp, h⟩)
      · revert h; decide
      · have : page = { bindings := [("pageFn", returnOne)] } := List.mem_singleton.1 hp
        subst this
        revert h; decide)
  ⟨⟨h1.1, h1.2.1⟩, ⟨h2.1, h2.2.1⟩, h3.2.2.2⟩

theorem newBrowserContext_mapping (env : Env) (isTracing : GoValue → Bool) (s : State)
    (parent : Nat) (objectType guid : String) (initializer : GoMap GoValue) (s' : State)
    (c : Nat)
    (h : newBrowserContext env isTracing s parent objectType guid initializer = some (s', c)) :
    (s'.obj c).eventToSubscriptionMapping = browserContextSubscriptions := by
  unfold newBrowserContext at h
  cases hres : env.fromChannel (GoMap.index initializer "tracing") with
  | none => rw [hres] at h; cases h
  | some tracing =>
    rw [hres] at h
    simp only [] at h
    by_cases ht : isTracing tracing = true
    · rw [if_pos ht] at h
      simp only [Option.some.injEq, Prod.mk.injEq] at h
      obtain ⟨hs, hc⟩ := h
      subst hs
      subst hc
      rw [State.obj_modify_self]
      · rfl
      · rw [createChannelOwner_length, State.length_alloc]
        exact Nat.lt_succ_self _
    · rw [if_neg ht] at h
      cases h

theorem newBrowserContext_without_tracing :
    newBrowserContext sampleEnv sampleIsTracing sampleTree 1 "BrowserContext" "context@1" []
      = none := rfl

/-- C16 at the failing input: the map `newBrowserContext` installs on every
context it returns has no key `requestfailed`, the event the handler of
`requestFailed` emits, so a listener of `requestfailed` sends nothing; the key
`responsefailed` it has instead is emitted by no handler.  On the context
`context@1`, made from an initializer with a tracing object, the first
listener of `requestfailed` sends nothing and the first listener of each of
the other three network events sends the subscribe message of its handler. -/
theorem requestfailed_is_not_mirrored :
    (∀ (env : Env) (isTracing : GoValue → Bool) (s : State) (parent : Nat)
        (objectType guid : String) (initializer : GoMap GoValue) (s1 : State) (c : Nat),
      newBrowserContext env isTracing s parent objectType guid initializer = some (s1, c) →
      (s1.obj c).eventToSubscriptionMapping = browserContextSubscriptions ∧
      GoMap.load (s1.obj c).eventToSubscriptionMapping "requestfailed" = none ∧
      ∀ handler, ((s1.obj c).On "requestfailed" handler).2 = []) ∧
    (∃ s1, newBrowserContext sampleEnv sampleIsTracing sampleTree 1 "BrowserContext"
        "context@1" sampleContextInitializer = some (s1, 3) ∧
      s1.obj 3 = sampleBrowserContext) ∧
    sampleBrowserContext.eventToSubscriptionMapping = browserContextSubscriptions ∧
    ("requestFailed", "requestfailed") ∈ networkHandlers ∧
    GoMap.load sampleBrowserContext.eventToSubscriptionMapping "requestfailed" = none ∧
    sampleBrowserContext.eventEmitter.ListenerCount "requestfailed" = 0 ∧
    (sampleBrowserContext.On "requestfailed" 1).2 = [] ∧
    (∀ h ∈ networkHandlers, h.2 ≠ "responsefailed") ∧
    (sampleBrowserContext.On "request" 1).2 =
      [sampleBrowserContext.SendNoReplyInternal "updateSubscription"
        [("event", GoValue.str "request"), ("enabled", GoValue.bool true)]] ∧
    (sampleBrowserContext.On "response" 1).2 =
      [sampleBrowserContext.SendNoReplyInternal "updateSubscription"
        [("event", GoValue.str "response"), ("enabled", GoValue.bool true)]] ∧
    (sampleBrowserContext.On "requestfinished" 1).2 =
      [sampleBrowserContext.SendNoReplyInternal "updateSubscription"
        [("event", GoValue.str "requestFinished"), ("enabled", GoValue.bool true)]] := by
  refine ⟨?_, ⟨_, rfl, rfl⟩, by decide, by decide, by decide, by decide, rfl, by decide,
    rfl, rfl, rfl⟩
  intro env isTracing s parent objectType guid initializer s1 c h
  have hmap := newBrowserContext_mapping env isTracing s parent objectType guid initializer
    s1 c h
  have hload : GoMap.load (s1.obj c).eventToSubscriptionMapping "requestfailed" = none := by
    rw [hmap]
    decide
  refine ⟨hmap, hload, ?_⟩
  intro handler
  unfold channelOwner.On channelOwner.addEvent channelOwner.updateSubscription
  simp only [hload]
  split <;> rfl

end Playwright
